import Mathlib

/-!
Shallow embedding of the HVE (Highest Volume Ever) repository core:
the watermark store (src/database.py), the resilient fetch client and
parallel orchestrator (src/polygon_client.py) and the ingestion pipeline
(src/setup_mode.py).

Modelling conventions:
* Calendar dates are day numbers of type `Int`; the source subtracts
  `timedelta(days=365)`, which becomes integer subtraction.
* Volumes are `Nat` (the source stores SQLite INTEGER volumes, and reads
  coerce falsy values to 0, which is the identity on `Nat`).
* Close prices and moving averages are `ℚ` (exact stand-in for Python
  floats; all comparisons used by the code are order comparisons).
* A bar (one element of the `historical_data` lists of dicts) is
  modelled with its trading date `t` (the source derives it from the
  UTC-millisecond timestamp by converting to US/Eastern before
  truncating; the embedding carries the resulting calendar date
  directly), its volume `v` and its close `c`.
* The SQLite row for one symbol is `HVRecord`; a NULLable column is an
  `Option`.  `insert_or_update_highest_volume` touches only the row of
  the symbol it is given, so it is embedded as a function of that
  symbol's row (`Option HVRecord`, `none` = no row) returning the new
  row together with the `(ever_updated, year_updated)` pair.
-/

structure Bar where
  t : Int
  v : Nat
  c : ℚ
deriving DecidableEq

structure HVRecord where
  date : Int
  volume : Nat
  highest_volume_year : Option Nat
  highest_volume_year_date : Option Int
deriving DecidableEq

/-- Loop body of `Database._calculate_year_high` (src/database.py lines
213-225): scan the bars, keeping the largest in-window volume and its
date, starting from `(0, start_date)`; a bar replaces the accumulator
only when its volume is strictly greater. -/
def year_high_loop (start_date end_date : Int) : List Bar → Nat × Int → Nat × Int
  | [], acc => acc
  | b :: bs, acc =>
    if start_date ≤ b.t ∧ b.t ≤ end_date then
      if b.v > acc.1 then year_high_loop start_date end_date bs (b.v, b.t)
      else year_high_loop start_date end_date bs acc
    else year_high_loop start_date end_date bs acc

/-- `Database._calculate_year_high` (src/database.py lines 208-226). -/
def calculate_year_high (historical_data : List Bar) (start_date end_date : Int) : Nat × Int :=
  year_high_loop start_date end_date historical_data (0, start_date)

/-- Read coercion of src/database.py lines 137-138: the existing ever
volume of the fetched row, 0 when the row is absent. -/
def everVolOf : Option HVRecord → Nat
  | some r => r.volume
  | none => 0

/-- Read coercion of src/database.py line 139: the existing year volume
of the fetched row; absence of the row, a NULL column and a falsy 0 all
read as 0 (identity on `Nat` for the last case). -/
def yearVolOf : Option HVRecord → Nat
  | some r =>
    match r.highest_volume_year with
    | some yv => yv
    | none => 0
  | none => 0

/-- Read coercion of src/database.py line 140: the existing year date
of the fetched row (a date string is never falsy, so only NULL and an
absent row read as `None`). -/
def yearDateOf : Option HVRecord → Option Int
  | some r => r.highest_volume_year_date
  | none => none

/-- Lines 150-163 of src/database.py: the current year record
`(current_year_volume, current_year_date)` together with the
`year_updated` flag after the aged-out check.  When the existing year
date is set and older than `year_ago`, the record is recomputed from
`historical_data` when that is truthy (a non-empty list) and otherwise
degrades to the current observation; when the existing year date is
unset or recent enough the existing pair is kept unchanged. -/
def year_stale_step (existing_year_volume : Nat) (existing_year_date : Option Int)
    (year_ago volume_date : Int) (volume : Nat)
    (historical_data : Option (List Bar)) : Nat × Option Int × Bool :=
  match existing_year_date with
  | some existing_date_obj =>
    if existing_date_obj < year_ago then
      match historical_data with
      | some (b :: bs) =>
        let yh := calculate_year_high (b :: bs) year_ago volume_date
        (yh.1, some yh.2, true)
      | some [] => (volume, some volume_date, true)
      | none => (volume, some volume_date, true)
    else (existing_year_volume, existing_year_date, false)
  | none => (existing_year_volume, existing_year_date, false)

/-- Lines 165-169 of src/database.py: today's volume beats the current
year record. -/
def year_beat_step (volume : Nat) (volume_date : Int)
    (st : Nat × Option Int × Bool) : Nat × Option Int × Bool :=
  if volume > st.1 then (volume, some volume_date, true) else st

/-- Lines 173-179 of src/database.py: the final
`(final_ever_volume, final_ever_date)` pair written on an update. -/
def final_ever (result : Option HVRecord) (volume_date : Int) (volume : Nat)
    (ever_updated : Bool) : Nat × Int :=
  if ever_updated then (volume, volume_date)
  else
    match result with
    | some r => (r.volume, r.date)
    | none => (volume, volume_date)

/-- `Database.insert_or_update_highest_volume` (src/database.py lines
122-206), acting on the symbol's row.  `historical_data = none` models
the Python default `None`; note the source guard `if historical_data:`
is falsy both for `None` and for an empty list.  The row is written
(`INSERT OR REPLACE`) exactly when `ever_updated or year_updated or`
the row was absent, and the call returns the flag pair. -/
def insert_or_update_highest_volume (result : Option HVRecord) (volume_date : Int)
    (volume : Nat) (historical_data : Option (List Bar)) :
    Option HVRecord × Bool × Bool :=
  let ever_updated : Bool := decide (volume > everVolOf result)
  let year_ago : Int := volume_date - 365
  let step_beat : Nat × Option Int × Bool :=
    year_beat_step volume volume_date
      (year_stale_step (yearVolOf result) (yearDateOf result) year_ago volume_date
        volume historical_data)
  if ever_updated || step_beat.2.2 || result.isNone then
    let fin : Nat × Int := final_ever result volume_date volume ever_updated
    (some ⟨fin.2, fin.1, some step_beat.1, step_beat.2.1⟩,
      ever_updated, step_beat.2.2)
  else
    (result, ever_updated, step_beat.2.2)

/-- `Database.get_highest_volume` (src/database.py lines 228-242) on the
symbol's row. -/
def get_highest_volume : Option HVRecord → Option (Int × Nat)
  | some r => some (r.date, r.volume)
  | none => none

/-- `Database.get_highest_volume_year` (src/database.py lines 244-258)
on the symbol's row: the source requires `result[0] and result[1]` to be
truthy, so a NULL year date, a NULL year volume or a year volume of 0
all report the year watermark as absent. -/
def get_highest_volume_year : Option HVRecord → Option (Int × Nat)
  | some r =>
    match r.highest_volume_year_date, r.highest_volume_year with
    | some yd, some yv => if yv = 0 then none else some (yd, yv)
    | _, _ => none
  | none => none

/-- One observation as fed to `insert_or_update_highest_volume`. -/
structure Obs where
  date : Int
  volume : Nat
  hist : Option (List Bar)
deriving DecidableEq

/-- The row after one `insert_or_update_highest_volume` call. -/
def applyState (s : Option HVRecord) (o : Obs) : Option HVRecord :=
  (insert_or_update_highest_volume s o.date o.volume o.hist).1

/-- The row after a sequence of `insert_or_update_highest_volume` calls. -/
def applySeq : Option HVRecord → List Obs → Option HVRecord :=
  List.foldl applyState

/-- One row of the SQLite association from symbols to records, for the
operations that touch several symbols.  `store_set` is SQLite
`INSERT OR REPLACE` keyed on the `symbol` primary key: the conflicting
row, if any, is deleted and the fresh row inserted whole. -/
def store_set : List (String × HVRecord) → String → HVRecord → List (String × HVRecord)
  | [], s, r => [(s, r)]
  | (s0, r0) :: rest, s, r =>
    if s0 = s then (s, r) :: rest else (s0, r0) :: store_set rest s r

/-- Lookup of a symbol's row in the store. -/
def store_get (st : List (String × HVRecord)) (s : String) : Option HVRecord :=
  (st.find? (fun p => p.1 = s)).map (fun p => p.2)

/-- `Database.batch_insert_highest_volumes` (src/database.py lines
326-343): for each `(symbol, date, volume)` record it executes
`INSERT OR REPLACE INTO highest_volume_ever (symbol, date, volume)`,
i.e. the whole row is replaced and the unsupplied year columns take
their default NULL. -/
def batch_insert_highest_volumes (st : List (String × HVRecord))
    (records : List (String × Int × Nat)) : List (String × HVRecord) :=
  records.foldl (fun st rec => store_set st rec.1 ⟨rec.2.1, rec.2.2, none, none⟩) st

/-!  Resilient fetch client (src/polygon_client.py). -/

/-- Outcome of one `self.session.get` call inside
`PolygonClient._make_request`: a 200 response with a payload, a non-200
HTTP status, or a raised `requests` exception (connection error,
timeout, ...).  The payload is abstracted to a `Nat`. -/
inductive AttemptResult where
  | success (v : Nat)
  | status (code : Nat)
  | connError
deriving DecidableEq

/-- Result of `PolygonClient._make_request` as seen by the caller: a
returned payload, or an exception (both the re-raised request exception
at the last attempt and the final `raise Exception` after the loop). -/
inductive ReqResult where
  | ok (v : Nat)
  | error
deriving DecidableEq

/-- The `for attempt in range(max_retries + 1)` loop of
`PolygonClient._make_request` (src/polygon_client.py lines 69-96).
`outcomes i` is the outcome of the HTTP call of attempt `i`; `fuel` is
the number of loop iterations left.  A 200 returns; a 429 sleeps and
retries; any other status is logged and `raise_for_status()` raises for
codes ≥ 400 (caught below: re-raised on the last attempt, retried after
backoff otherwise) and is a no-op for codes < 400, falling through to
the next iteration; a request exception is likewise re-raised on the
last attempt and retried otherwise.  Exhausting the loop raises. -/
def make_request_loop (outcomes : Nat → AttemptResult) (max_retries : Nat) :
    Nat → Nat → ReqResult
  | _, 0 => .error
  | attempt, fuel + 1 =>
    match outcomes attempt with
    | .success v => .ok v
    | .status c =>
      if c = 429 then make_request_loop outcomes max_retries (attempt + 1) fuel
      else if 400 ≤ c then
        if attempt = max_retries then .error
        else make_request_loop outcomes max_retries (attempt + 1) fuel
      else make_request_loop outcomes max_retries (attempt + 1) fuel
    | .connError =>
      if attempt = max_retries then .error
      else make_request_loop outcomes max_retries (attempt + 1) fuel

/-- `PolygonClient._make_request` with its default retry budget
`max_retries = 3` (src/polygon_client.py line 61). -/
def make_request (outcomes : Nat → AttemptResult) : ReqResult :=
  make_request_loop outcomes 3 0 (3 + 1)

/-- An outcome the claim calls transient: the explicit rate-limit
signal 429, a 5xx response, or a connection error. -/
def transient : AttemptResult → Bool
  | .success _ => false
  | .status c => c = 429 || (500 ≤ c && c ≤ 599)
  | .connError => true

/-!  Parallel orchestrator (src/polygon_client.py lines 236-259). -/

/-- The `symbols[i:i + chunk_size]` slices of the chunk loop in
`PolygonClient.process_symbols_parallel`.  All call sites use a
positive chunk size (100 or 50); for `cs = 0` the Python `range` with a
zero step would raise, and this embedding yields singleton chunks. -/
def chunks (cs : Nat) : List α → List (List α)
  | [] => []
  | x :: xs => (x :: List.take (cs - 1) xs) :: chunks cs (List.drop (cs - 1) xs)
termination_by l => l.length
decreasing_by
  simp only [List.length_cons, List.length_drop]
  omega

/-- Outcome of the per-symbol `process_func`: `Except.error` models a
raised exception, `Except.ok none` a `None` result, `Except.ok (some r)`
a produced result. -/
abbrev SymbolOutcome (β : Type) := Except Unit (Option β)

/-- `PolygonClient.process_symbols_parallel` (src/polygon_client.py
lines 236-259): for each chunk, run `process_func` per symbol and
append each non-`None` result to the running `results`, logging and
skipping the symbols whose call raised.  The worker pool completes the
futures of a chunk in a nondeterministic order; the embedding fixes
submission order, which is faithful for the count and membership
properties stated about it. -/
def process_symbols_parallel (process_func : σ → SymbolOutcome β) (cs : Nat)
    (symbols : List σ) : List β :=
  (chunks cs symbols).foldl
    (fun results chunk =>
      chunk.foldl
        (fun results s =>
          match process_func s with
          | .ok (some r) => results ++ [r]
          | .ok none => results
          | .error _ => results)
        results)
    []

/-- The contribution of one symbol to the orchestrator's result list:
its produced result, or nothing when its call raised or returned
`None`. -/
def symbol_result (f : σ → SymbolOutcome β) (s : σ) : Option β :=
  match f s with
  | .ok (some r) => some r
  | .ok none => none
  | .error _ => none

/-!  Universe filter (src/polygon_client.py lines 317-379). -/

/-- `PolygonClient.calculate_10_sma` (src/polygon_client.py lines
317-331): 0 unless at least 10 bars exist; over the most recent 10
bars, drop the non-positive values of the chosen field and require all
10 to remain, then average. -/
def calculate_10_sma (historical_data : List Bar) (field : Bar → ℚ) : ℚ :=
  if historical_data.length < 10 then 0
  else
    let recent_data := historical_data.drop (historical_data.length - 10)
    let values := recent_data.map field
    let valid_values := values.filter (fun v => decide (0 < v))
    if valid_values.length < 10 then 0
    else valid_values.sum / (valid_values.length : ℚ)

/-- `PolygonClient.passes_data_universe_filters` (src/polygon_client.py
lines 333-379) on already-supplied historical data: needs at least 10
bars, a latest close of at least $3.00, non-zero 10-SMAs, and a 10-SMA
dollar volume strictly above $10,000,000. -/
def passes_data_universe_filters (historical_data : List Bar) : Bool :=
  if historical_data.length < 10 then false
  else
    let current_price : ℚ := ((historical_data.getLast?).map (fun b => b.c)).getD 0
    if current_price < 3 then false
    else
      let sma_volume := calculate_10_sma historical_data (fun b => (b.v : ℚ))
      let sma_price := calculate_10_sma historical_data (fun b => b.c)
      if sma_volume = 0 || sma_price = 0 then false
      else if sma_volume * sma_price ≤ 10000000 then false
      else true

/-!  Ingestion pipeline (src/setup_mode.py). -/

/-- The per-symbol reducer `find_highest_volume_for_symbol` inside
`SetupMode._process_symbol_batch` (src/setup_mode.py lines 107-139):
`None` on empty history, otherwise the strict-max scan over the bars;
returns a pair only when a date was found and the max volume is
positive. -/
def find_highest_volume_for_symbol (historical_data : List Bar) : Option (Int × Nat) :=
  if historical_data.isEmpty then none
  else
    let best := historical_data.foldl
      (fun acc b => if b.v > acc.2 then (some b.t, b.v) else acc)
      ((none : Option Int), 0)
    match best.1 with
    | some d => if best.2 > 0 then some (d, best.2) else none
    | none => none

/-- The set of symbols for which `SetupMode._initial_setup`
(src/setup_mode.py lines 48-101) performs a store insert: the symbol
list comes from `get_all_active_symbols()` with no universe filtering,
is processed in batches of 100 through `process_symbols_parallel` with
`find_highest_volume_for_symbol`, and every symbol whose reducer
returned a result is inserted.  `histOf` supplies each symbol's fetched
history. -/
def initial_setup_processed (symbols : List String) (histOf : String → List Bar) :
    List String :=
  (process_symbols_parallel
    (fun s => Except.ok (Option.map (fun hv => (s, hv))
      (find_highest_volume_for_symbol (histOf s))))
    100 symbols).map (fun p => p.1)

/-- `SetupMode._get_last_update_date` (src/setup_mode.py lines
217-227).  Its docstring says it returns the last update date from the
metadata table, and `metadata_last_update` is the value the metadata
table holds; the body never consults it and returns `today - 7`
unconditionally (the inner comment calls this a simplified version). -/
def get_last_update_date (today : Int) (metadata_last_update : Option Int) : Int :=
  today - 7

/-- The date range `(start_date, end_date)` that
`SetupMode._backfill_stale_data` (src/setup_mode.py lines 163-166)
fetches bars for: `start_date = _get_last_update_date() + 1` and
`end_date = yesterday`. -/
def backfill_range (today : Int) (metadata_last_update : Option Int) : Int × Int :=
  let last_update := get_last_update_date today metadata_last_update
  (last_update + 1, today - 1)

/-!  Specification-side definitions, written from the words of the
spec, used to compare code behaviour against the claims. -/

/-- The bars of a history falling inside the year window
`[start_date, end_date]`. -/
def window_bars (h : List Bar) (start_date end_date : Int) : List Bar :=
  h.filter (fun b => decide (start_date ≤ b.t) && decide (b.t ≤ end_date))

/-- The true maximum volume over the bars inside the window (0 when no
bar qualifies). -/
def max_window_volume (h : List Bar) (start_date end_date : Int) : Nat :=
  ((window_bars h start_date end_date).map (fun b => b.v)).foldr max 0

/-- Maximum volume passed across a sequence of observations. -/
def maxVolList (l : List Obs) : Nat :=
  (l.map (fun o => o.volume)).foldr max 0

/-- The per-call side condition of the amended invariant claim: every
bar of a supplied full history that falls inside the observation's year
window carries a volume no larger than the larger of the stored ever
volume and the observed volume. -/
def histOK (s : Option HVRecord) (o : Obs) : Prop :=
  ∀ h, o.hist = some h → ∀ b ∈ h,
    o.date - 365 ≤ b.t → b.t ≤ o.date → b.v ≤ max (everVolOf s) o.volume

/-- `histOK` holding along a whole call sequence, each call judged
against the store state it actually sees. -/
def seqOK : Option HVRecord → List Obs → Prop
  | _, [] => True
  | s, o :: os => histOK s o ∧ seqOK (applyState s o) os

/-- The latest 10 sessions of a history, per the spec's universe-filter
sentence. -/
def latest_10_sessions (h : List Bar) : List Bar :=
  h.drop (h.length - 10)

/-- Plain average of a list of rationals. -/
def listAvg (l : List ℚ) : ℚ :=
  l.sum / (l.length : ℚ)

/-- The spec's 10-session average dollar volume:
average(volume) × average(close) over the latest 10 sessions. -/
def spec_avg_dollar_volume (h : List Bar) : ℚ :=
  listAvg ((latest_10_sessions h).map (fun b => (b.v : ℚ))) *
    listAvg ((latest_10_sessions h).map (fun b => b.c))

/-- The latest close of a history (0 when empty, as in the source's
`.get` default). -/
def spec_latest_close (h : List Bar) : ℚ :=
  ((h.getLast?).map (fun b => b.c)).getD 0

/-- Generic strict-max scan over `(value, tag)` pairs, the common shape
of the ever-watermark update and of the year-high loop. -/
def maxScan : List (Nat × Int) → Nat × Int → Nat × Int
  | [], acc => acc
  | p :: ps, acc => if p.1 > acc.1 then maxScan ps p else maxScan ps acc

/-- Maximum value of a list of `(value, tag)` pairs. -/
def maxFst (l : List (Nat × Int)) : Nat :=
  (l.map (fun p => p.1)).foldr max 0

/-!  Helper lemmas about the strict-max scan. -/

theorem maxFst_cons (p : Nat × Int) (ps : List (Nat × Int)) :
    maxFst (p :: ps) = max p.1 (maxFst ps) := rfl

theorem le_maxFst (l : List (Nat × Int)) : ∀ p ∈ l, p.1 ≤ maxFst l := by
  induction l with
  | nil => intro p hp; cases hp
  | cons q qs ih =>
    intro p hp
    rcases List.mem_cons.1 hp with h | h
    · subst h; rw [maxFst_cons]; exact Nat.le_max_left _ _
    · exact Nat.le_trans (ih p h) (by rw [maxFst_cons]; exact Nat.le_max_right _ _)

theorem maxScan_fst (l : List (Nat × Int)) :
    ∀ acc, (maxScan l acc).1 = max acc.1 (maxFst l) := by
  induction l with
  | nil => intro acc; simp [maxScan, maxFst]
  | cons p ps ih =>
    intro acc
    rw [maxScan]
    by_cases hgt : p.1 > acc.1
    · rw [if_pos hgt, ih, maxFst_cons]; omega
    · rw [if_neg hgt, ih, maxFst_cons]; omega

theorem maxScan_of_le (l : List (Nat × Int)) (acc : Nat × Int)
    (h : ∀ p ∈ l, p.1 ≤ acc.1) : maxScan l acc = acc := by
  induction l with
  | nil => rfl
  | cons p ps ih =>
    rw [maxScan, if_neg]
    · exact ih fun q hq => h q (List.mem_cons_of_mem _ hq)
    · exact Nat.not_lt.2 (h p (List.mem_cons_self _ _))

theorem maxScan_find (l : List (Nat × Int)) :
    ∀ (acc : Nat × Int) (M : Nat), maxFst l = M → acc.1 < M →
      ∃ p, l.find? (fun q => decide (q.1 = M)) = some p ∧
        p.1 = M ∧ maxScan l acc = (M, p.2) := by
  induction l with
  | nil =>
    intro acc M hM hlt
    simp [maxFst] at hM
    omega
  | cons p ps ih =>
    intro acc M hM hlt
    rw [maxFst_cons] at hM
    by_cases hp : p.1 = M
    · refine ⟨p, ?_, hp, ?_⟩
      · rw [List.find?_cons_of_pos _ (by simp [hp])]
      · rw [maxScan, if_pos (by omega)]
        rw [maxScan_of_le ps p (fun q hq => by
          have := le_maxFst ps q hq
          omega)]
        exact Prod.ext (by omega) rfl
    · have hps : maxFst ps = M := by omega
      have hplt : p.1 < M := by
        have := Nat.le_max_left p.1 (maxFst ps)
        omega
      rw [List.find?_cons_of_neg _ (by simp [hp])]
      rw [maxScan]
      by_cases hgt : p.1 > acc.1
      · rw [if_pos hgt]; exact ih p M hps hplt
      · rw [if_neg hgt]; exact ih acc M hps hlt

theorem find?_map_pairs (l : List Bar) (M : Nat) :
    (l.map (fun b => (b.v, b.t))).find? (fun q => decide (q.1 = M)) =
      (l.find? (fun b => decide (b.v = M))).map (fun b => (b.v, b.t)) := by
  induction l with
  | nil => rfl
  | cons b bs ih =>
    rw [List.map_cons]
    by_cases hb : b.v = M
    · rw [List.find?_cons_of_pos _ (by simp [hb]),
        List.find?_cons_of_pos _ (by simp [hb])]
      rfl
    · rw [List.find?_cons_of_neg _ (by simp [hb]),
        List.find?_cons_of_neg _ (by simp [hb])]
      exact ih

theorem find?_first_min {R : Bar → Bar → Prop} (hrefl : ∀ b, R b b)
    (l : List Bar) (p : Bar → Bool) (b : Bar) :
    l.Pairwise R → l.find? p = some b → ∀ b2 ∈ l, p b2 = true → R b b2 := by
  induction l with
  | nil => intro _ hf; cases hf
  | cons x xs ih =>
    intro hpw hf b2 hb2 hp2
    rcases List.pairwise_cons.1 hpw with ⟨hx, hxs⟩
    by_cases hpx : p x = true
    · rw [List.find?_cons_of_pos _ hpx] at hf
      cases hf
      rcases List.mem_cons.1 hb2 with h | h
      · subst h; exact hrefl _
      · exact hx _ h
    · rw [List.find?_cons_of_neg _ (by simpa using hpx)] at hf
      rcases List.mem_cons.1 hb2 with h | h
      · subst h; exact absurd hp2 hpx
      · exact ih hxs hf b2 h hp2

theorem find?_map_pairs_obs (l : List Obs) (M : Nat) :
    (l.map (fun o => (o.volume, o.date))).find? (fun q => decide (q.1 = M)) =
      (l.find? (fun o => decide (o.volume = M))).map (fun o => (o.volume, o.date)) := by
  induction l with
  | nil => rfl
  | cons o os ih =>
    rw [List.map_cons]
    by_cases ho : o.volume = M
    · rw [List.find?_cons_of_pos _ (by simp [ho]),
        List.find?_cons_of_pos _ (by simp [ho])]
      rfl
    · rw [List.find?_cons_of_neg _ (by simp [ho]),
        List.find?_cons_of_neg _ (by simp [ho])]
      exact ih

theorem maxVolList_cons (o : Obs) (os : List Obs) :
    maxVolList (o :: os) = max o.volume (maxVolList os) := rfl

theorem maxFst_pairs_obs (os : List Obs) :
    maxFst (os.map (fun o => (o.volume, o.date))) = maxVolList os := by
  simp only [maxFst, maxVolList, List.map_map]
  rfl

/-!  Bridging the year-high loop to the strict-max scan. -/

theorem year_high_loop_eq_maxScan (s e : Int) (l : List Bar) :
    ∀ acc, year_high_loop s e l acc =
      maxScan ((window_bars l s e).map (fun b => (b.v, b.t))) acc := by
  induction l with
  | nil => intro acc; rfl
  | cons b bs ih =>
    intro acc
    rw [year_high_loop, window_bars]
    by_cases hw : s ≤ b.t ∧ b.t ≤ e
    · rw [List.filter_cons_of_pos (by simp [hw.1, hw.2]), if_pos hw]
      rw [List.map_cons, maxScan]
      by_cases hgt : b.v > acc.1
      · rw [if_pos hgt, if_pos hgt, ih]; rfl
      · rw [if_neg hgt, if_neg hgt, ih]; rfl
    · rw [List.filter_cons_of_neg (by
        simp only [Bool.and_eq_true, decide_eq_true_eq]
        exact hw), if_neg hw, ih]
      rfl

theorem max_window_volume_eq (h : List Bar) (s e : Int) :
    max_window_volume h s e = maxFst ((window_bars h s e).map (fun b => (b.v, b.t))) := by
  rw [max_window_volume, maxFst, List.map_map]
  rfl

theorem calculate_year_high_fst (h : List Bar) (s e : Int) :
    (calculate_year_high h s e).1 = max_window_volume h s e := by
  rw [calculate_year_high, year_high_loop_eq_maxScan, maxScan_fst, max_window_volume_eq]
  exact Nat.max_eq_right (Nat.zero_le _)

/-!  Small facts about the steps of the update algorithm. -/

theorem year_stale_step_none (eyv : Nat) (ya d : Int) (v : Nat)
    (h : Option (List Bar)) :
    year_stale_step eyv none ya d v h = (eyv, none, false) := rfl

theorem year_stale_step_fresh (eyv : Nat) (yd ya d : Int) (v : Nat)
    (h : Option (List Bar)) (hyd : ¬ yd < ya) :
    year_stale_step eyv (some yd) ya d v h = (eyv, some yd, false) := by
  simp [year_stale_step, hyd]

theorem year_stale_step_stale_hist (eyv : Nat) (yd ya d : Int) (v : Nat)
    (b : Bar) (bs : List Bar) (hyd : yd < ya) :
    year_stale_step eyv (some yd) ya d v (some (b :: bs)) =
      ((calculate_year_high (b :: bs) ya d).1,
        some (calculate_year_high (b :: bs) ya d).2, true) := by
  simp [year_stale_step, hyd]

theorem year_stale_step_stale_degrade (eyv : Nat) (yd ya d : Int) (v : Nat)
    (h : Option (List Bar)) (hyd : yd < ya) (hh : h = none ∨ h = some []) :
    year_stale_step eyv (some yd) ya d v h = (v, some d, true) := by
  rcases hh with hh | hh <;> subst hh <;> simp [year_stale_step, hyd]

theorem year_beat_step_fst_ge (v : Nat) (d : Int) (st : Nat × Option Int × Bool) :
    v ≤ (year_beat_step v d st).1 := by
  rw [year_beat_step]
  by_cases hgt : v > st.1
  · rw [if_pos hgt]
  · rw [if_neg hgt]; omega

theorem year_high_loop_snd_lb (s e : Int) (l : List Bar) :
    ∀ acc : Nat × Int, s ≤ acc.2 → s ≤ (year_high_loop s e l acc).2 := by
  induction l with
  | nil => intro acc h; exact h
  | cons b bs ih =>
    intro acc h
    rw [year_high_loop]
    by_cases hw : s ≤ b.t ∧ b.t ≤ e
    · rw [if_pos hw]
      by_cases hgt : b.v > acc.1
      · rw [if_pos hgt]; exact ih _ hw.1
      · rw [if_neg hgt]; exact ih _ h
    · rw [if_neg hw]; exact ih _ h

theorem calculate_year_high_snd_lb (h : List Bar) (s e : Int) :
    s ≤ (calculate_year_high h s e).2 :=
  year_high_loop_snd_lb s e h (0, s) le_rfl

theorem year_stale_step_snd_lb (eyv : Nat) (eyd : Option Int) (ya d : Int)
    (v : Nat) (h : Option (List Bar)) (hya : ya ≤ d) :
    ∀ yd2, (year_stale_step eyv eyd ya d v h).2.1 = some yd2 → ya ≤ yd2 := by
  intro yd2 hout
  match eyd with
  | none =>
    rw [year_stale_step_none] at hout
    cases hout
  | some yd =>
    by_cases hst : yd < ya
    · match h with
      | some (b :: bs) =>
        rw [year_stale_step_stale_hist _ _ _ _ _ _ _ hst] at hout
        cases hout
        exact calculate_year_high_snd_lb _ _ _
      | some [] =>
        rw [year_stale_step_stale_degrade _ _ _ _ _ _ hst (Or.inr rfl)] at hout
        cases hout
        exact hya
      | none =>
        rw [year_stale_step_stale_degrade _ _ _ _ _ _ hst (Or.inl rfl)] at hout
        cases hout
        exact hya
    · rw [year_stale_step_fresh _ _ _ _ _ _ hst] at hout
      cases hout
      omega

theorem year_beat_step_snd (v : Nat) (d : Int) (st : Nat × Option Int × Bool) :
    (year_beat_step v d st).2.1 = some d ∨ (year_beat_step v d st).2.1 = st.2.1 := by
  rw [year_beat_step]
  by_cases hgt : v > st.1
  · rw [if_pos hgt]; exact Or.inl rfl
  · rw [if_neg hgt]; exact Or.inr rfl

theorem year_stale_step_flag_false (eyv : Nat) (eyd : Option Int) (ya d : Int)
    (v : Nat) (h : Option (List Bar))
    (hfl : (year_stale_step eyv eyd ya d v h).2.2 = false) :
    year_stale_step eyv eyd ya d v h = (eyv, eyd, false) := by
  match eyd with
  | none => rw [year_stale_step_none]
  | some yd =>
    by_cases hst : yd < ya
    · exfalso
      match h with
      | some (b :: bs) =>
        rw [year_stale_step_stale_hist _ _ _ _ _ _ _ hst] at hfl
        exact Bool.true_eq_false ▸ hfl.symm ▸ rfl
      | some [] =>
        rw [year_stale_step_stale_degrade _ _ _ _ _ _ hst (Or.inr rfl)] at hfl
        exact Bool.true_eq_false ▸ hfl.symm ▸ rfl
      | none =>
        rw [year_stale_step_stale_degrade _ _ _ _ _ _ hst (Or.inl rfl)] at hfl
        exact Bool.true_eq_false ▸ hfl.symm ▸ rfl
    · rw [year_stale_step_fresh _ _ _ _ _ _ hst]

/-!  Characterisation lemmas for `insert_or_update_highest_volume`. -/

theorem insert_flag_ever (s : Option HVRecord) (d : Int) (v : Nat)
    (h : Option (List Bar)) :
    (insert_or_update_highest_volume s d v h).2.1 = decide (everVolOf s < v) := by
  simp only [insert_or_update_highest_volume]
  split <;> rfl

theorem insert_isSome (s : Option HVRecord) (d : Int) (v : Nat)
    (h : Option (List Bar)) :
    ((insert_or_update_highest_volume s d v h).1).isSome = true := by
  simp only [insert_or_update_highest_volume]
  split
  · rfl
  · rename_i hcond
    match s with
    | some r => rfl
    | none => simp at hcond

theorem insert_evervol (s : Option HVRecord) (d : Int) (v : Nat)
    (h : Option (List Bar)) :
    everVolOf (insert_or_update_highest_volume s d v h).1 = max (everVolOf s) v := by
  match s with
  | none =>
    simp only [insert_or_update_highest_volume]
    split
    · by_cases hev : (0 : Nat) < v <;>
        simp [final_ever, everVolOf, hev] <;> omega
    · rename_i hcond
      simp at hcond
  | some r =>
    simp only [insert_or_update_highest_volume]
    split
    · by_cases hev : r.volume < v <;>
        simp [final_ever, everVolOf, hev] <;> omega
    · rename_i hcond
      simp only [Bool.or_eq_true, not_or] at hcond
      have hev := hcond.1.1
      simp only [everVolOf, gt_iff_lt, decide_eq_true_eq] at hev
      show everVolOf (some r) = max (everVolOf (some r)) v
      simp only [everVolOf]
      omega

theorem insert_everfields_lt (s : Option HVRecord) (d : Int) (v : Nat)
    (h : Option (List Bar)) (hlt : everVolOf s < v) :
    ∃ r2, (insert_or_update_highest_volume s d v h).1 = some r2 ∧
      r2.volume = v ∧ r2.date = d := by
  simp only [insert_or_update_highest_volume]
  rw [if_pos (by simp [hlt])]
  refine ⟨_, rfl, ?_, ?_⟩ <;> simp [final_ever, hlt]

theorem insert_everfields_ge (r : HVRecord) (d : Int) (v : Nat)
    (h : Option (List Bar)) (hge : ¬ everVolOf (some r) < v) :
    ∃ r2, (insert_or_update_highest_volume (some r) d v h).1 = some r2 ∧
      r2.volume = r.volume ∧ r2.date = r.date := by
  simp only [insert_or_update_highest_volume]
  split
  · refine ⟨_, rfl, ?_, ?_⟩ <;> simp [final_ever, hge]
  · exact ⟨r, rfl, rfl, rfl⟩

theorem insert_none_everfields (d : Int) (v : Nat) (h : Option (List Bar)) :
    ∃ r2, (insert_or_update_highest_volume none d v h).1 = some r2 ∧
      r2.volume = v ∧ r2.date = d := by
  simp only [insert_or_update_highest_volume]
  rw [if_pos (by simp)]
  refine ⟨_, rfl, ?_, ?_⟩ <;> by_cases hev : (0 : Nat) < v <;>
    simp [final_ever, everVolOf, hev]

theorem insert_yearvol_ge (s : Option HVRecord) (d : Int) (v : Nat)
    (h : Option (List Bar)) :
    v ≤ yearVolOf (insert_or_update_highest_volume s d v h).1 := by
  simp only [insert_or_update_highest_volume]
  split
  · simpa [yearVolOf] using year_beat_step_fst_ge v d _
  · rename_i hcond
    simp only [Bool.or_eq_true, not_or] at hcond
    obtain ⟨⟨hev, hyu⟩, hnn⟩ := hcond
    have hgt : ¬ v > (year_stale_step (yearVolOf s) (yearDateOf s) (d - 365) d v h).1 := by
      intro hgt
      exact hyu (by simp [year_beat_step, hgt])
    have hss := year_stale_step_flag_false (yearVolOf s) (yearDateOf s) (d - 365) d v h
      (by
        have hb : year_beat_step v d
            (year_stale_step (yearVolOf s) (yearDateOf s) (d - 365) d v h) =
            year_stale_step (yearVolOf s) (yearDateOf s) (d - 365) d v h := by
          simp [year_beat_step, hgt]
        rw [hb] at hyu
        simpa using hyu)
    show v ≤ yearVolOf s
    rw [hss] at hgt
    simpa using Nat.le_of_not_lt hgt

theorem insert_yeardate_lb (s : Option HVRecord) (d : Int) (v : Nat)
    (h : Option (List Bar)) :
    ∀ yd, yearDateOf (insert_or_update_highest_volume s d v h).1 = some yd →
      d - 365 ≤ yd := by
  intro yd hout
  rw [insert_or_update_highest_volume] at hout
  revert hout
  split
  · intro hout
    have hout3 : (year_beat_step v d
        (year_stale_step (yearVolOf s) (yearDateOf s) (d - 365) d v h)).2.1 =
        some yd := hout
    rcases year_beat_step_snd v d
        (year_stale_step (yearVolOf s) (yearDateOf s) (d - 365) d v h) with hb | hb
    · rw [hb] at hout3
      cases hout3
      omega
    · rw [hb] at hout3
      exact year_stale_step_snd_lb _ _ _ _ _ _ (by omega) yd hout3
  · rename_i hcond
    intro hout
    simp only [Bool.or_eq_true, not_or] at hcond
    obtain ⟨⟨hev, hyu⟩, hnn⟩ := hcond
    have hgt : ¬ v > (year_stale_step (yearVolOf s) (yearDateOf s) (d - 365) d v h).1 := by
      intro hgt
      exact hyu (by simp [year_beat_step, hgt])
    have hss := year_stale_step_flag_false (yearVolOf s) (yearDateOf s) (d - 365) d v h
      (by
        have hb : year_beat_step v d
            (year_stale_step (yearVolOf s) (yearDateOf s) (d - 365) d v h) =
            year_stale_step (yearVolOf s) (yearDateOf s) (d - 365) d v h := by
          simp [year_beat_step, hgt]
        rw [hb] at hyu
        simpa using hyu)
    -- the no-write branch returns the untouched row, whose year date,
    -- being set, must have passed the freshness test
    have hout2 : yearDateOf s = some yd := hout
    rw [hout2] at hss
    by_cases hst : yd < d - 365
    · exfalso
      match h with
      | some (b :: bs) =>
        rw [year_stale_step_stale_hist _ _ _ _ _ _ _ hst] at hss
        simp at hss
      | some [] =>
        rw [year_stale_step_stale_degrade _ _ _ _ _ _ hst (Or.inr rfl)] at hss
        simp at hss
      | none =>
        rw [year_stale_step_stale_degrade _ _ _ _ _ _ hst (Or.inl rfl)] at hss
        simp at hss
    · omega

theorem insert_no_update (r : HVRecord) (d : Int) (v : Nat)
    (h : Option (List Bar)) (hev : ¬ r.volume < v)
    (hyd : ∀ yd, r.highest_volume_year_date = some yd → ¬ yd < d - 365)
    (hyv : ¬ yearVolOf (some r) < v) :
    insert_or_update_highest_volume (some r) d v h = (some r, false, false) := by
  have hss : year_stale_step (yearVolOf (some r)) (yearDateOf (some r)) (d - 365) d v h =
      (yearVolOf (some r), yearDateOf (some r), false) := by
    match hr : r.highest_volume_year_date with
    | none =>
      simp only [yearDateOf, hr]
      exact year_stale_step_none _ _ _ _ _
    | some yd =>
      simp only [yearDateOf, hr]
      exact year_stale_step_fresh _ _ _ _ _ _ (hyd yd hr)
  have hbs : year_beat_step v d (year_stale_step (yearVolOf (some r))
      (yearDateOf (some r)) (d - 365) d v h) =
      (yearVolOf (some r), yearDateOf (some r), false) := by
    rw [hss, year_beat_step]
    exact if_neg hyv
  rw [insert_or_update_highest_volume]
  rw [if_neg]
  · simp only [hbs]
    have : decide (v > everVolOf (some r)) = false := by
      simp only [everVolOf]
      simpa using hev
    rw [this]
  · simp only [hbs, Bool.or_eq_true, not_or]
    refine ⟨⟨?_, by simp⟩, by simp⟩
    simp only [everVolOf]
    simpa using hev

theorem insert_stale_hist (r : HVRecord) (yd d : Int) (v : Nat) (b : Bar)
    (bs : List Bar) (hyd : r.highest_volume_year_date = some yd)
    (hstale : yd < d - 365) :
    (insert_or_update_highest_volume (some r) d v (some (b :: bs))).2.2 = true ∧
      yearVolOf (insert_or_update_highest_volume (some r) d v (some (b :: bs))).1 =
        max v (calculate_year_high (b :: bs) (d - 365) d).1 ∧
      yearDateOf (insert_or_update_highest_volume (some r) d v (some (b :: bs))).1 =
        (if (calculate_year_high (b :: bs) (d - 365) d).1 < v then some d
          else some (calculate_year_high (b :: bs) (d - 365) d).2) := by
  have hss : year_stale_step (yearVolOf (some r)) (yearDateOf (some r)) (d - 365) d v
      (some (b :: bs)) =
      ((calculate_year_high (b :: bs) (d - 365) d).1,
        some (calculate_year_high (b :: bs) (d - 365) d).2, true) := by
    simp only [yearDateOf, hyd]
    exact year_stale_step_stale_hist _ _ _ _ _ _ _ hstale
  rw [insert_or_update_highest_volume, hss]
  by_cases hgt : v > (calculate_year_high (b :: bs) (d - 365) d).1
  · rw [year_beat_step, if_pos hgt]
    rw [if_pos (by simp)]
    refine ⟨rfl, ?_, ?_⟩
    · simp only [yearVolOf]
      omega
    · simp only [yearDateOf]
      rw [if_pos hgt]
  · rw [year_beat_step, if_neg hgt]
    rw [if_pos (by simp)]
    refine ⟨rfl, ?_, ?_⟩
    · simp only [yearVolOf]
      omega
    · simp only [yearDateOf]
      rw [if_neg hgt]

theorem insert_stale_degrade (r : HVRecord) (yd d : Int) (v : Nat)
    (h : Option (List Bar)) (hyd : r.highest_volume_year_date = some yd)
    (hstale : yd < d - 365) (hh : h = none ∨ h = some []) :
    (insert_or_update_highest_volume (some r) d v h).2.2 = true ∧
      yearVolOf (insert_or_update_highest_volume (some r) d v h).1 = v ∧
      yearDateOf (insert_or_update_highest_volume (some r) d v h).1 = some d := by
  have hss : year_stale_step (yearVolOf (some r)) (yearDateOf (some r)) (d - 365) d v h =
      (v, some d, true) := by
    simp only [yearDateOf, hyd]
    exact year_stale_step_stale_degrade _ _ _ _ _ _ hstale hh
  rw [insert_or_update_highest_volume, hss]
  have hbs : year_beat_step v d ((v : Nat), some d, true) = (v, some d, true) := by
    rw [year_beat_step, if_neg (by omega)]
  rw [hbs]
  rw [if_pos (by simp)]
  exact ⟨rfl, rfl, rfl⟩

theorem insert_unset_year (r : HVRecord) (d : Int) (v : Nat)
    (h : Option (List Bar)) (hyd : r.highest_volume_year_date = none) :
    insert_or_update_highest_volume (some r) d v h =
      insert_or_update_highest_volume (some r) d v none ∧
    (insert_or_update_highest_volume (some r) d v h).2.2 =
      decide (yearVolOf (some r) < v) := by
  have hss : ∀ h2 : Option (List Bar),
      year_stale_step (yearVolOf (some r)) (yearDateOf (some r)) (d - 365) d v h2 =
      (yearVolOf (some r), none, false) := by
    intro h2
    simp only [yearDateOf, hyd]
    exact year_stale_step_none _ _ _ _ _
  constructor
  · rw [insert_or_update_highest_volume, insert_or_update_highest_volume, hss, hss]
  · rw [insert_or_update_highest_volume, hss]
    by_cases hgt : v > yearVolOf (some r)
    · rw [year_beat_step, if_pos hgt]
      rw [if_pos (by simp)]
      simpa using hgt
    · rw [year_beat_step, if_neg hgt]
      have : decide (yearVolOf (some r) < v) = false := by simpa using hgt
      rw [this]
      split <;> rfl

theorem max_window_volume_le (h : List Bar) (s e : Int) (B : Nat)
    (hb : ∀ b ∈ h, s ≤ b.t → b.t ≤ e → b.v ≤ B) :
    max_window_volume h s e ≤ B := by
  rw [max_window_volume]
  induction h with
  | nil => simp [window_bars]
  | cons b bs ih =>
    rw [window_bars]
    by_cases hw : s ≤ b.t ∧ b.t ≤ e
    · rw [List.filter_cons_of_pos (by simp [hw.1, hw.2])]
      rw [List.map_cons, List.foldr_cons]
      have h1 : b.v ≤ B := hb b (List.mem_cons_self _ _) hw.1 hw.2
      have h2 := ih fun b2 hb2 => hb b2 (List.mem_cons_of_mem _ hb2)
      rw [window_bars] at h2
      omega
    · rw [List.filter_cons_of_neg (by
        simp only [Bool.and_eq_true, decide_eq_true_eq]
        exact hw)]
      have h2 := ih fun b2 hb2 => hb b2 (List.mem_cons_of_mem _ hb2)
      rw [window_bars] at h2
      exact h2

theorem insert_yearvol_ub (s : Option HVRecord) (d : Int) (v : Nat) (B : Nat)
    (h : Option (List Bar))
    (hhist : ∀ hb, h = some hb → ∀ b ∈ hb, d - 365 ≤ b.t → b.t ≤ d → b.v ≤ B)
    (hvol : v ≤ B) (hold : yearVolOf s ≤ B) :
    yearVolOf (insert_or_update_highest_volume s d v h).1 ≤ B := by
  have hstale : (year_stale_step (yearVolOf s) (yearDateOf s) (d - 365) d v h).1 ≤ B := by
    match hyd : yearDateOf s with
    | none =>
      rw [year_stale_step_none]
      exact hold
    | some yd =>
      by_cases hst : yd < d - 365
      · match h with
        | some (b :: bs) =>
          rw [year_stale_step_stale_hist _ _ _ _ _ _ _ hst]
          rw [calculate_year_high_fst]
          exact max_window_volume_le _ _ _ _ (hhist _ rfl)
        | some [] =>
          rw [year_stale_step_stale_degrade _ _ _ _ _ _ hst (Or.inr rfl)]
          exact hvol
        | none =>
          rw [year_stale_step_stale_degrade _ _ _ _ _ _ hst (Or.inl rfl)]
          exact hvol
      · rw [year_stale_step_fresh _ _ _ _ _ _ hst]
        exact hold
  have hbeat : (year_beat_step v d
      (year_stale_step (yearVolOf s) (yearDateOf s) (d - 365) d v h)).1 ≤ B := by
    rw [year_beat_step]
    by_cases hgt : v > (year_stale_step (yearVolOf s) (yearDateOf s) (d - 365) d v h).1
    · rw [if_pos hgt]
      exact hvol
    · rw [if_neg hgt]
      exact hstale
  rw [insert_or_update_highest_volume]
  split
  · simpa [yearVolOf] using hbeat
  · exact hold

theorem calculate_year_high_snd_achiever (hs : List Bar) (s e : Int)
    (hpos : 0 < max_window_volume hs s e) :
    ∃ bmax, (window_bars hs s e).find?
        (fun b => decide (b.v = max_window_volume hs s e)) = some bmax ∧
      bmax.v = max_window_volume hs s e ∧
      (calculate_year_high hs s e).2 = bmax.t := by
  have hms := maxScan_find ((window_bars hs s e).map (fun b => (b.v, b.t))) (0, s)
    (max_window_volume hs s e) (max_window_volume_eq hs s e).symm hpos
  obtain ⟨p, hfind, hp1, hms2⟩ := hms
  rw [find?_map_pairs] at hfind
  match hf : (window_bars hs s e).find? (fun b => decide (b.v = max_window_volume hs s e)) with
  | none =>
    rw [hf] at hfind
    cases hfind
  | some bmax =>
    rw [hf] at hfind
    refine ⟨bmax, hf, ?_, ?_⟩
    · have : p = (bmax.v, bmax.t) := by
        simpa using hfind.symm
      rw [this] at hp1
      exact hp1
    · rw [calculate_year_high, year_high_loop_eq_maxScan, hms2]
      have : p = (bmax.v, bmax.t) := by
        simpa using hfind.symm
      rw [this]

/-!  Ever-watermark scan lemmas. -/

theorem applyState_some_ever (r : HVRecord) (o : Obs) :
    ∃ r1, applyState (some r) o = some r1 ∧
      (r1.volume, r1.date) =
        (if o.volume > r.volume then (o.volume, o.date) else (r.volume, r.date)) := by
  by_cases hgt : o.volume > r.volume
  · obtain ⟨r1, h1, h2, h3⟩ := insert_everfields_lt (some r) o.date o.volume o.hist
      (by simpa [everVolOf] using hgt)
    exact ⟨r1, h1, by rw [if_pos hgt, h2, h3]⟩
  · obtain ⟨r1, h1, h2, h3⟩ := insert_everfields_ge r o.date o.volume o.hist
      (by simpa [everVolOf] using hgt)
    exact ⟨r1, h1, by rw [if_neg hgt, h2, h3]⟩

theorem applySeq_some_ever (l : List Obs) :
    ∀ r : HVRecord, ∃ r2, applySeq (some r) l = some r2 ∧
      (r2.volume, r2.date) =
        maxScan (l.map (fun o => (o.volume, o.date))) (r.volume, r.date) := by
  induction l with
  | nil => intro r; exact ⟨r, rfl, rfl⟩
  | cons o os ih =>
    intro r
    obtain ⟨r1, h1, h2⟩ := applyState_some_ever r o
    obtain ⟨r2, h3, h4⟩ := ih r1
    refine ⟨r2, ?_, ?_⟩
    · show applySeq (applyState (some r) o) os = some r2
      rw [h1]
      exact h3
    · rw [List.map_cons, maxScan]
      by_cases hgt : o.volume > r.volume
      · rw [if_pos hgt]
        rw [if_pos hgt] at h2
        rw [h4, show ((o.volume, o.date) : Nat × Int) = (r1.volume, r1.date) from h2.symm]
      · rw [if_neg hgt]
        rw [if_neg hgt] at h2
        rw [h4, show ((r.volume, r.date) : Nat × Int) = (r1.volume, r1.date) from h2.symm]

theorem seq_inv (l : List Obs) :
    ∀ s : Option HVRecord, yearVolOf s ≤ everVolOf s → seqOK s l →
      yearVolOf (applySeq s l) ≤ everVolOf (applySeq s l) := by
  induction l with
  | nil => intro s hinv _; exact hinv
  | cons o os ih =>
    intro s hinv hok
    obtain ⟨hhist, hok2⟩ := hok
    show yearVolOf (applySeq (applyState s o) os) ≤ everVolOf (applySeq (applyState s o) os)
    apply ih
    · have hev : everVolOf (applyState s o) = max (everVolOf s) o.volume :=
        insert_evervol s o.date o.volume o.hist
      have hyv : yearVolOf (applyState s o) ≤ max (everVolOf s) o.volume := by
        apply insert_yearvol_ub
        · intro hb hhb b hbmem h1 h2
          exact hhist hb hhb b hbmem h1 h2
        · exact Nat.le_max_right _ _
        · exact le_trans hinv (Nat.le_max_left _ _)
      rw [hev]
      exact hyv
    · exact hok2

/-- Claim C1 (amended): for every sequence of
`insert_or_update_highest_volume` calls in which every supplied full
history keeps its in-window bar volumes within the larger of the stored
ever volume and the observed volume, the stored record always satisfies
`ever_volume ≥ year_volume`.  (As literally stated the claim fails: a
year-window recompute from a supplied `fullHistory` copies the maximum
in-window bar volume into `year_volume` without touching `ever_volume`,
so a history bar larger than the stored ever volume breaks the
invariant — see the counterexample.) -/
theorem C1_ever_ge_year_invariant (l : List Obs) (hok : seqOK none l) :
    yearVolOf (applySeq none l) ≤ everVolOf (applySeq none l) :=
  seq_inv l none le_rfl hok

/-- Witness for C1: a singleton observation sequence with no history
satisfies the side condition and the invariant. -/
theorem C1_ever_ge_year_invariant_witness :
    yearVolOf (applySeq none [⟨0, 5, none⟩]) ≤
      everVolOf (applySeq none [⟨0, 5, none⟩]) :=
  C1_ever_ge_year_invariant [⟨0, 5, none⟩] (by simp [seqOK, histOK])

/-- Counterexample to C1 as stated: after an observation of volume 100,
a second observation of volume 50 arrives with a stale year date and a
full history containing an in-window bar of volume 200; the recompute
stores `year_volume = 200` while `ever_volume` stays 100, violating
`ever_volume ≥ year_volume`. -/
theorem C1_ever_ge_year_counterexample :
    everVolOf (applySeq none [⟨0, 100, none⟩, ⟨400, 50, some [⟨300, 200, 0⟩]⟩]) = 100 ∧
    yearVolOf (applySeq none [⟨0, 100, none⟩, ⟨400, 50, some [⟨300, 200, 0⟩]⟩]) = 200 ∧
    ¬ yearVolOf (applySeq none [⟨0, 100, none⟩, ⟨400, 50, some [⟨300, 200, 0⟩]⟩]) ≤
        everVolOf (applySeq none [⟨0, 100, none⟩, ⟨400, 50, some [⟨300, 200, 0⟩]⟩]) := by
  refine ⟨?_, ?_, ?_⟩ <;> decide

/-- Claim C3: across any sequence of calls on one symbol the stored
ever volume is the maximum volume ever passed and the ever date is the
date of the first call achieving that maximum; a call reports
`ever_updated` exactly when its volume strictly exceeds the stored ever
volume (0 when the row is absent), the ever fields are otherwise left
unchanged, and a first insert seeds them from the observation. -/
theorem C3_ever_tracking :
    (∀ l : List Obs, l ≠ [] → ∃ r, applySeq none l = some r ∧
      r.volume = maxVolList l ∧
      ∃ o, l.find? (fun o => decide (o.volume = maxVolList l)) = some o ∧
        r.date = o.date) ∧
    (∀ (s : Option HVRecord) (o : Obs),
      (insert_or_update_highest_volume s o.date o.volume o.hist).2.1 =
        decide (everVolOf s < o.volume)) ∧
    (∀ (r : HVRecord) (o : Obs), ¬ everVolOf (some r) < o.volume →
      ∃ r2, applyState (some r) o = some r2 ∧
        r2.volume = r.volume ∧ r2.date = r.date) ∧
    (∀ (d : Int) (v : Nat) (h : Option (List Bar)),
      ∃ r2, (insert_or_update_highest_volume none d v h).1 = some r2 ∧
        r2.volume = v ∧ r2.date = d) := by
  refine ⟨?_, ?_, ?_, ?_⟩
  · intro l hl
    match l, hl with
    | o :: os, _ =>
      obtain ⟨r0, h0, h0v, h0d⟩ := insert_none_everfields o.date o.volume o.hist
      obtain ⟨r2, h2, h3⟩ := applySeq_some_ever os r0
      have hseq : applySeq none (o :: os) = some r2 := by
        show applySeq (applyState none o) os = some r2
        have : applyState none o = some r0 := h0
        rw [this]
        exact h2
      rw [h0v, h0d] at h3
      by_cases hcase : maxVolList os ≤ o.volume
      · have hM : maxVolList (o :: os) = o.volume := by
          rw [maxVolList_cons]
          omega
        refine ⟨r2, hseq, ?_, o, ?_, ?_⟩
        · rw [hM]
          have hle : ∀ p ∈ os.map (fun o => (o.volume, o.date)), p.1 ≤ o.volume := by
            intro p hp
            have := le_maxFst _ p hp
            have heq := maxFst_pairs_obs os
            omega
          rw [maxScan_of_le _ _ hle] at h3
          exact (Prod.mk.injEq _ _ _ _ ▸ h3).1
        · exact List.find?_cons_of_pos _ (by simp [hM])
        · have hle : ∀ p ∈ os.map (fun o => (o.volume, o.date)), p.1 ≤ o.volume := by
            intro p hp
            have := le_maxFst _ p hp
            have heq := maxFst_pairs_obs os
            omega
          rw [maxScan_of_le _ _ hle] at h3
          exact (Prod.mk.injEq _ _ _ _ ▸ h3).2
      · have hMos := maxFst_pairs_obs os
        have hM : maxVolList (o :: os) = maxVolList os := by
          rw [maxVolList_cons]
          omega
        obtain ⟨p, hfind, hp1, hms⟩ := maxScan_find (os.map (fun o => (o.volume, o.date)))
          (o.volume, o.date) (maxVolList os) hMos (by omega)
        rw [find?_map_pairs_obs] at hfind
        match hf : os.find? (fun o2 => decide (o2.volume = maxVolList os)) with
        | none =>
          rw [hf] at hfind
          cases hfind
        | some omax =>
          rw [hf] at hfind
          have hpeq : p = (omax.volume, omax.date) := by simpa using hfind.symm
          refine ⟨r2, hseq, ?_, omax, ?_, ?_⟩
          · rw [hms] at h3
            rw [hM]
            exact (Prod.mk.injEq _ _ _ _ ▸ h3).1
          · rw [List.find?_cons_of_neg _ (by
              simp only [decide_eq_true_eq, hM]
              omega)]
            rw [hM]
            exact hf
          · rw [hms, hpeq] at h3
            exact (Prod.mk.injEq _ _ _ _ ▸ h3).2
  · intro s o
    exact insert_flag_ever s o.date o.volume o.hist
  · intro r o hge
    exact insert_everfields_ge r o.date o.volume o.hist hge
  · intro d v h
    exact insert_none_everfields d v h

/-- Witness for C3: a two-observation run whose maximum 9 arrives on
the second call. -/
theorem C3_ever_tracking_witness :
    ∃ r, applySeq none ([⟨0, 5, none⟩, ⟨1, 9, none⟩] : List Obs) = some r ∧
      r.volume = maxVolList [⟨0, 5, none⟩, ⟨1, 9, none⟩] ∧
      ∃ o, List.find? (fun o => decide (o.volume =
          maxVolList [⟨0, 5, none⟩, ⟨1, 9, none⟩]))
          ([⟨0, 5, none⟩, ⟨1, 9, none⟩] : List Obs) = some o ∧
        r.date = o.date :=
  C3_ever_tracking.1 ([⟨0, 5, none⟩, ⟨1, 9, none⟩] : List Obs) (by decide)

/-- Claim C4: reapplying an identical `(date, volume)` observation
right after it was applied returns `(False, False)` and leaves the row
unchanged, for every prior row, observation and pair of supplied
histories. -/
theorem C4_idempotent (s : Option HVRecord) (d : Int) (v : Nat)
    (h h2 : Option (List Bar)) :
    insert_or_update_highest_volume
        (insert_or_update_highest_volume s d v h).1 d v h2 =
      ((insert_or_update_highest_volume s d v h).1, false, false) := by
  obtain ⟨r1, hr1⟩ := Option.isSome_iff_exists.1 (insert_isSome s d v h)
  rw [hr1]
  apply insert_no_update
  · have hev := insert_evervol s d v h
    rw [hr1] at hev
    simp only [everVolOf] at hev
    omega
  · intro yd hyd
    have := insert_yeardate_lb s d v h yd (by rw [hr1]; exact hyd)
    omega
  · have hyv := insert_yearvol_ge s d v h
    rw [hr1] at hyv
    omega

/-- Claim C10: a first observation with volume 0 inserts a row seeding
the ever fields from the observation, storing year volume 0 with an
unset year date, and returns `(False, False)`; and
`get_highest_volume_year` reports the year watermark as absent whenever
the stored year volume is 0 or NULL, even if a year date is stored. -/
theorem C10_zero_volume_first_insert :
    (∀ d : Int, insert_or_update_highest_volume none d 0 none =
      (some ⟨d, 0, some 0, none⟩, false, false)) ∧
    (∀ r : HVRecord,
      r.highest_volume_year = some 0 ∨ r.highest_volume_year = none →
      get_highest_volume_year (some r) = none) := by
  constructor
  · intro d
    rfl
  · intro r hr
    rcases r with ⟨d2, v2, y2, yd2⟩
    rcases hr with hr | hr <;> cases hr <;> cases yd2 <;>
      simp [get_highest_volume_year]

/-- Witness for C10: a row holding year volume 0 with a year date set
still reports the year watermark as absent. -/
theorem C10_zero_volume_first_insert_witness :
    get_highest_volume_year (some ⟨3, 7, some 0, some 2⟩) = none :=
  C10_zero_volume_first_insert.2 ⟨3, 7, some 0, some 2⟩ (Or.inl rfl)

/-!  Store-level lemmas for the batch path. -/

theorem store_get_set_self (st : List (String × HVRecord)) (s : String) (r : HVRecord) :
    store_get (store_set st s r) s = some r := by
  induction st with
  | nil => simp [store_set, store_get]
  | cons p ps ih =>
    rcases p with ⟨s0, r0⟩
    rw [store_set]
    by_cases h0 : s0 = s
    · rw [if_pos h0]
      simp [store_get]
    · rw [if_neg h0]
      rw [store_get, List.find?_cons_of_neg _ (by simpa using h0)]
      exact ih

theorem store_get_set_other (st : List (String × HVRecord)) (s : String)
    (r : HVRecord) (s2 : String) (hne : s2 ≠ s) :
    store_get (store_set st s r) s2 = store_get st s2 := by
  induction st with
  | nil =>
    rw [store_set, store_get, store_get]
    rw [List.find?_cons_of_neg _ (by simpa using fun he => hne he.symm)]
  | cons p ps ih =>
    rcases p with ⟨s0, r0⟩
    rw [store_set]
    by_cases h0 : s0 = s
    · rw [if_pos h0]
      subst h0
      rw [store_get, store_get]
      rw [List.find?_cons_of_neg _ (by simpa using fun he => hne he.symm),
        List.find?_cons_of_neg _ (by simpa using fun he => hne he.symm)]
    · rw [if_neg h0]
      by_cases h2 : s0 = s2
      · subst h2
        rw [store_get, store_get]
        rw [List.find?_cons_of_pos _ (by simp), List.find?_cons_of_pos _ (by simp)]
      · rw [store_get, store_get]
        rw [List.find?_cons_of_neg _ (by simpa using h2),
          List.find?_cons_of_neg _ (by simpa using h2)]
        exact ih

/-- Claim C8 (amended): the batch path executes
`INSERT OR REPLACE (symbol, date, volume)`, which replaces the whole
row: the ever fields take the batch values and the year columns are
cleared to NULL, for present and absent symbols alike; rows of other
symbols are untouched.  (As literally stated the claim fails: the year
fields of an already-present symbol are not left unchanged but reset to
NULL — see the counterexample.) -/
theorem C8_batch_replaces_row :
    (∀ (st : List (String × HVRecord)) (s : String) (d : Int) (v : Nat),
      store_get (batch_insert_highest_volumes st [(s, d, v)]) s =
        some ⟨d, v, none, none⟩) ∧
    (∀ (st : List (String × HVRecord)) (s : String) (d : Int) (v : Nat)
      (s2 : String), s2 ≠ s →
      store_get (batch_insert_highest_volumes st [(s, d, v)]) s2 =
        store_get st s2) := by
  constructor
  · intro st s d v
    exact store_get_set_self st s ⟨d, v, none, none⟩
  · intro st s d v s2 hne
    exact store_get_set_other st s ⟨d, v, none, none⟩ s2 hne

/-- Witness for C8 (amended): a concrete batch insert over a one-row
store replaces that row and leaves a different symbol's lookup alone. -/
theorem C8_batch_replaces_row_witness :
    store_get (batch_insert_highest_volumes
        [("A", ⟨0, 100, some 100, some 0⟩)] [("A", 1, 200)]) "B" =
      store_get [("A", (⟨0, 100, some 100, some 0⟩ : HVRecord))] "B" :=
  C8_batch_replaces_row.2 [("A", ⟨0, 100, some 100, some 0⟩)] "A" 1 200 "B"
    (by decide)

/-- Counterexample to C8 as stated: a symbol present with year fields
`(100, 0)` receives a batch record; afterwards its year columns read
NULL, not the previous values — the batch path does not leave the year
watermark fields unchanged. -/
theorem C8_batch_counterexample :
    store_get [("A", (⟨0, 100, some 100, some 0⟩ : HVRecord))] "A" =
      some ⟨0, 100, some 100, some 0⟩ ∧
    store_get (batch_insert_highest_volumes
        [("A", ⟨0, 100, some 100, some 0⟩)] [("A", 1, 200)]) "A" =
      some ⟨1, 200, none, none⟩ ∧
    ¬ (store_get (batch_insert_highest_volumes
        [("A", ⟨0, 100, some 100, some 0⟩)] [("A", 1, 200)]) "A").map
          HVRecord.highest_volume_year =
        (store_get [("A", (⟨0, 100, some 100, some 0⟩ : HVRecord))] "A").map
          HVRecord.highest_volume_year := by
  refine ⟨rfl, rfl, ?_⟩
  decide

/-- Claim C2 (amended): the year recompute fires exactly when the
existing year date is SET and older than `date − 365` (an unset year
date skips the recompute entirely and the supplied history is ignored).
On a recompute with a non-empty `fullHistory` the stored year volume
becomes the maximum of the observation volume and the true in-window
maximum, `year_updated` is reported, and — provided the bars arrive in
ascending date order — on a tie the earliest in-window date wins; with
no usable history the year record degrades to the observation alone. -/
theorem C2_year_recompute (r : HVRecord) (yd d : Int) (v : Nat)
    (h : Option (List Bar)) :
    (∀ b bs, r.highest_volume_year_date = some yd → yd < d - 365 →
      h = some (b :: bs) →
      (insert_or_update_highest_volume (some r) d v h).2.2 = true ∧
      yearVolOf (insert_or_update_highest_volume (some r) d v h).1 =
        max v (max_window_volume (b :: bs) (d - 365) d) ∧
      (max_window_volume (b :: bs) (d - 365) d < v →
        yearDateOf (insert_or_update_highest_volume (some r) d v h).1 = some d) ∧
      (0 < max_window_volume (b :: bs) (d - 365) d →
        v ≤ max_window_volume (b :: bs) (d - 365) d →
        (b :: bs).Pairwise (fun a b2 => a.t ≤ b2.t) →
        ∃ bmax, bmax ∈ window_bars (b :: bs) (d - 365) d ∧
          bmax.v = max_window_volume (b :: bs) (d - 365) d ∧
          yearDateOf (insert_or_update_highest_volume (some r) d v h).1 =
            some bmax.t ∧
          ∀ b2 ∈ window_bars (b :: bs) (d - 365) d,
            b2.v = max_window_volume (b :: bs) (d - 365) d → bmax.t ≤ b2.t)) ∧
    (r.highest_volume_year_date = some yd → yd < d - 365 →
      (h = none ∨ h = some []) →
      (insert_or_update_highest_volume (some r) d v h).2.2 = true ∧
      yearVolOf (insert_or_update_highest_volume (some r) d v h).1 = v ∧
      yearDateOf (insert_or_update_highest_volume (some r) d v h).1 = some d) ∧
    (r.highest_volume_year_date = none →
      insert_or_update_highest_volume (some r) d v h =
        insert_or_update_highest_volume (some r) d v none ∧
      (insert_or_update_highest_volume (some r) d v h).2.2 =
        decide (yearVolOf (some r) < v)) := by
  refine ⟨?_, ?_, ?_⟩
  · intro b bs hyd hst hh
    subst hh
    obtain ⟨hflag, hvol, hdate⟩ := insert_stale_hist r yd d v b bs hyd hst
    rw [calculate_year_high_fst] at hvol hdate
    refine ⟨hflag, hvol, ?_, ?_⟩
    · intro hlt
      rw [hdate, if_pos hlt]
    · intro hpos hle hsort
      obtain ⟨bmax, hfind, hbv, hbt⟩ := calculate_year_high_snd_achiever (b :: bs)
        (d - 365) d hpos
      refine ⟨bmax, List.mem_of_find?_eq_some hfind, hbv, ?_, ?_⟩
      · rw [hdate, if_neg (by omega), hbt]
      · intro b2 hb2 hb2v
        have hpw : (window_bars (b :: bs) (d - 365) d).Pairwise
            (fun a b2 => a.t ≤ b2.t) :=
          List.Pairwise.sublist (List.filter_sublist _) hsort
        exact find?_first_min (fun b3 => le_refl b3.t) _ _ bmax hpw hfind b2 hb2
          (by simp [hb2v])
  · intro hyd hst hh
    exact insert_stale_degrade r yd d v h hyd hst hh
  · intro hyd
    exact insert_unset_year r d v h hyd

/-- Witness for C2 (amended): a stale year record recomputed from a
one-bar in-window history of volume 200 against an observation of 50. -/
theorem C2_year_recompute_witness :
    (insert_or_update_highest_volume (some ⟨0, 100, some 10, some 0⟩) 400 50
        (some [⟨300, 200, 0⟩])).2.2 = true ∧
      yearVolOf (insert_or_update_highest_volume (some ⟨0, 100, some 10, some 0⟩)
          400 50 (some [⟨300, 200, 0⟩])).1 =
        max 50 (max_window_volume [⟨300, 200, 0⟩] (400 - 365) 400) ∧
      (max_window_volume [⟨300, 200, 0⟩] (400 - 365) 400 < 50 →
        yearDateOf (insert_or_update_highest_volume (some ⟨0, 100, some 10, some 0⟩)
            400 50 (some [⟨300, 200, 0⟩])).1 = some 400) ∧
      (0 < max_window_volume [⟨300, 200, 0⟩] (400 - 365) 400 →
        50 ≤ max_window_volume [⟨300, 200, 0⟩] (400 - 365) 400 →
        ([⟨300, 200, 0⟩] : List Bar).Pairwise (fun a b2 => a.t ≤ b2.t) →
        ∃ bmax, bmax ∈ window_bars [⟨300, 200, 0⟩] (400 - 365) 400 ∧
          bmax.v = max_window_volume [⟨300, 200, 0⟩] (400 - 365) 400 ∧
          yearDateOf (insert_or_update_highest_volume
              (some ⟨0, 100, some 10, some 0⟩) 400 50
              (some [⟨300, 200, 0⟩])).1 = some bmax.t ∧
          ∀ b2 ∈ window_bars [⟨300, 200, 0⟩] (400 - 365) 400,
            b2.v = max_window_volume [⟨300, 200, 0⟩] (400 - 365) 400 →
              bmax.t ≤ b2.t) :=
  (C2_year_recompute ⟨0, 100, some 10, some 0⟩ 0 400 50
      (some [⟨300, 200, 0⟩])).1 ⟨300, 200, 0⟩ [] rfl (by decide) rfl

/-- Counterexample to C2 as stated: a row whose year date is unset (as
the batch path leaves it) receives an observation of volume 5 together
with a full history whose in-window maximum is 50; the claim demands a
recompute storing year volume 50, but the code skips the recompute when
the year date is unset and stores the observation volume 5 instead. -/
theorem C2_year_recompute_counterexample :
    store_get (batch_insert_highest_volumes [] [("A", 0, 100)]) "A" =
      some ⟨0, 100, none, none⟩ ∧
    (⟨0, 100, none, none⟩ : HVRecord).highest_volume_year_date = none ∧
    max_window_volume [⟨5, 50, 0⟩] (10 - 365) 10 = 50 ∧
    insert_or_update_highest_volume (some ⟨0, 100, none, none⟩) 10 5
        (some [⟨5, 50, 0⟩]) = (some ⟨0, 100, some 5, some 10⟩, false, true) ∧
    yearVolOf (insert_or_update_highest_volume (some ⟨0, 100, none, none⟩) 10 5
        (some [⟨5, 50, 0⟩])).1 ≠ 50 := by
  refine ⟨?_, rfl, ?_, ?_, ?_⟩ <;> decide

/-- Claim C5: the incremental catch-up pass is meant to fetch from the
last successful ingestion date plus one day, but
`_get_last_update_date` never consults the stored metadata value and
always returns `today - 7`, so the fetched window is the fixed range
`[today - 6, today - 1]` regardless of the metadata; with the stored
last update at `today - 10` the days `today - 9 .. today - 7` are
silently skipped.  The code contradicts its own docstring
(`Get the last update date from metadata`). -/
theorem C5_backfill_window_ignores_metadata :
    (∀ (today : Int) (m1 m2 : Option Int),
      get_last_update_date today m1 = get_last_update_date today m2) ∧
    (∀ (today : Int) (m : Option Int),
      backfill_range today m = (today - 6, today - 1)) ∧
    backfill_range 20 (some 10) = (14, 19) ∧
    (backfill_range 20 (some 10)).1 ≠ 10 + 1 := by
  refine ⟨fun _ _ _ => rfl, fun today m => ?_, rfl, by decide⟩
  rw [backfill_range, get_last_update_date]
  refine Prod.ext ?_ rfl
  show today - 7 + 1 = today - 6
  omega

/-!  Retry-loop lemmas for `_make_request`: one equation per branch of
the loop body, then the behavioural lemmas. -/

theorem mrl_zero (o : Nat → AttemptResult) (mr attempt : Nat) :
    make_request_loop o mr attempt 0 = .error := rfl

theorem mrl_success (o : Nat → AttemptResult) (mr attempt n v : Nat)
    (ho : o attempt = .success v) :
    make_request_loop o mr attempt (n + 1) = .ok v := by
  rw [make_request_loop, ho]

theorem mrl_status_429 (o : Nat → AttemptResult) (mr attempt n c : Nat)
    (ho : o attempt = .status c) (h429 : c = 429) :
    make_request_loop o mr attempt (n + 1) =
      make_request_loop o mr (attempt + 1) n := by
  rw [make_request_loop, ho]
  simp [h429]

theorem mrl_status_raise_last (o : Nat → AttemptResult) (mr attempt n c : Nat)
    (ho : o attempt = .status c) (h429 : c ≠ 429) (h400 : 400 ≤ c)
    (hlast : attempt = mr) :
    make_request_loop o mr attempt (n + 1) = .error := by
  rw [make_request_loop, ho]
  simp [h429, h400, hlast]

theorem mrl_status_raise_retry (o : Nat → AttemptResult) (mr attempt n c : Nat)
    (ho : o attempt = .status c) (h429 : c ≠ 429) (h400 : 400 ≤ c)
    (hlast : attempt ≠ mr) :
    make_request_loop o mr attempt (n + 1) =
      make_request_loop o mr (attempt + 1) n := by
  rw [make_request_loop, ho]
  simp [h429, h400, hlast]

theorem mrl_status_low (o : Nat → AttemptResult) (mr attempt n c : Nat)
    (ho : o attempt = .status c) (h429 : c ≠ 429) (h400 : ¬ 400 ≤ c) :
    make_request_loop o mr attempt (n + 1) =
      make_request_loop o mr (attempt + 1) n := by
  rw [make_request_loop, ho]
  simp [h429, h400]

theorem mrl_conn_last (o : Nat → AttemptResult) (mr attempt n : Nat)
    (ho : o attempt = .connError) (hlast : attempt = mr) :
    make_request_loop o mr attempt (n + 1) = .error := by
  rw [make_request_loop, ho]
  simp [hlast]

theorem mrl_conn_retry (o : Nat → AttemptResult) (mr attempt n : Nat)
    (ho : o attempt = .connError) (hlast : attempt ≠ mr) :
    make_request_loop o mr attempt (n + 1) =
      make_request_loop o mr (attempt + 1) n := by
  rw [make_request_loop, ho]
  simp [hlast]

theorem make_request_loop_congr (o o2 : Nat → AttemptResult) (mr : Nat) :
    ∀ (fuel attempt : Nat), (∀ i, i < attempt + fuel → o i = o2 i) →
      make_request_loop o mr attempt fuel = make_request_loop o2 mr attempt fuel := by
  intro fuel
  induction fuel with
  | zero => intro attempt _; rfl
  | succ n ih =>
    intro attempt hag
    have ho2 : o2 attempt = o attempt := (hag attempt (by omega)).symm
    have hrec := ih (attempt + 1) (fun i hi => hag i (by omega))
    match ho : o attempt with
    | .success v =>
      rw [mrl_success o mr attempt n v ho, mrl_success o2 mr attempt n v (by rw [ho2, ho])]
    | .status c =>
      by_cases h429 : c = 429
      · rw [mrl_status_429 o mr attempt n c ho h429,
          mrl_status_429 o2 mr attempt n c (by rw [ho2, ho]) h429, hrec]
      · by_cases h400 : 400 ≤ c
        · by_cases hlast : attempt = mr
          · rw [mrl_status_raise_last o mr attempt n c ho h429 h400 hlast,
              mrl_status_raise_last o2 mr attempt n c (by rw [ho2, ho]) h429 h400 hlast]
          · rw [mrl_status_raise_retry o mr attempt n c ho h429 h400 hlast,
              mrl_status_raise_retry o2 mr attempt n c (by rw [ho2, ho]) h429 h400 hlast,
              hrec]
        · rw [mrl_status_low o mr attempt n c ho h429 h400,
            mrl_status_low o2 mr attempt n c (by rw [ho2, ho]) h429 h400, hrec]
    | .connError =>
      by_cases hlast : attempt = mr
      · rw [mrl_conn_last o mr attempt n ho hlast,
          mrl_conn_last o2 mr attempt n (by rw [ho2, ho]) hlast]
      · rw [mrl_conn_retry o mr attempt n ho hlast,
          mrl_conn_retry o2 mr attempt n (by rw [ho2, ho]) hlast, hrec]

theorem make_request_loop_all_transient (o : Nat → AttemptResult) :
    ∀ (fuel attempt : Nat), attempt + fuel = 4 →
      (∀ i, i ≤ 3 → transient (o i) = true) →
      make_request_loop o 3 attempt fuel = .error := by
  intro fuel
  induction fuel with
  | zero => intro attempt _ _; rfl
  | succ n ih =>
    intro attempt hsum htr
    have hle : attempt ≤ 3 := by omega
    have ht := htr attempt hle
    match ho : o attempt with
    | .success v => rw [ho] at ht; simp [transient] at ht
    | .status c =>
      rw [ho] at ht
      simp only [transient, Bool.or_eq_true, Bool.and_eq_true, decide_eq_true_eq] at ht
      rcases ht with h429 | ⟨h500, h599⟩
      · rw [mrl_status_429 o 3 attempt n c ho h429]
        exact ih (attempt + 1) (by omega) htr
      · by_cases hlast : attempt = 3
        · rw [mrl_status_raise_last o 3 attempt n c ho (by omega) (by omega) hlast]
        · rw [mrl_status_raise_retry o 3 attempt n c ho (by omega) (by omega) hlast]
          exact ih (attempt + 1) (by omega) htr
    | .connError =>
      by_cases hlast : attempt = 3
      · rw [mrl_conn_last o 3 attempt n ho hlast]
      · rw [mrl_conn_retry o 3 attempt n ho hlast]
        exact ih (attempt + 1) (by omega) htr

theorem make_request_loop_success (o : Nat → AttemptResult) :
    ∀ (fuel attempt i v : Nat), attempt + fuel = 4 → attempt ≤ i → i ≤ 3 →
      (∀ j, attempt ≤ j → j < i → transient (o j) = true) →
      o i = .success v →
      make_request_loop o 3 attempt fuel = .ok v := by
  intro fuel
  induction fuel with
  | zero => intro attempt i v hsum hai hi3 _ _; omega
  | succ n ih =>
    intro attempt i v hsum hai hi3 htr hsucc
    by_cases heq : attempt = i
    · subst heq
      exact mrl_success o 3 attempt n v hsucc
    · have hlt : attempt < i := by omega
      have ht := htr attempt le_rfl hlt
      match ho : o attempt with
      | .success w => rw [ho] at ht; simp [transient] at ht
      | .status c =>
        rw [ho] at ht
        simp only [transient, Bool.or_eq_true, Bool.and_eq_true, decide_eq_true_eq] at ht
        rcases ht with h429 | ⟨h500, h599⟩
        · rw [mrl_status_429 o 3 attempt n c ho h429]
          exact ih (attempt + 1) i v (by omega) (by omega) hi3
            (fun j hj hji => htr j (by omega) hji) hsucc
        · rw [mrl_status_raise_retry o 3 attempt n c ho (by omega) (by omega) (by omega)]
          exact ih (attempt + 1) i v (by omega) (by omega) hi3
            (fun j hj hji => htr j (by omega) hji) hsucc
      | .connError =>
        rw [mrl_conn_retry o 3 attempt n ho (by omega)]
        exact ih (attempt + 1) i v (by omega) (by omega) hi3
          (fun j hj hji => htr j (by omega) hji) hsucc

theorem make_request_loop_ok_from_success (o : Nat → AttemptResult) :
    ∀ (fuel attempt v : Nat), make_request_loop o 3 attempt fuel = .ok v →
      ∃ i, attempt ≤ i ∧ i < attempt + fuel ∧ o i = .success v := by
  intro fuel
  induction fuel with
  | zero => intro attempt v hok; cases hok
  | succ n ih =>
    intro attempt v hok
    match ho : o attempt with
    | .success w =>
      rw [mrl_success o 3 attempt n w ho] at hok
      cases hok
      exact ⟨attempt, le_rfl, by omega, ho⟩
    | .status c =>
      by_cases h429 : c = 429
      · rw [mrl_status_429 o 3 attempt n c ho h429] at hok
        obtain ⟨i, h1, h2, h3⟩ := ih (attempt + 1) v hok
        exact ⟨i, by omega, by omega, h3⟩
      · by_cases h400 : 400 ≤ c
        · by_cases hlast : attempt = 3
          · rw [mrl_status_raise_last o 3 attempt n c ho h429 h400 hlast] at hok
            cases hok
          · rw [mrl_status_raise_retry o 3 attempt n c ho h429 h400 hlast] at hok
            obtain ⟨i, h1, h2, h3⟩ := ih (attempt + 1) v hok
            exact ⟨i, by omega, by omega, h3⟩
        · rw [mrl_status_low o 3 attempt n c ho h429 h400] at hok
          obtain ⟨i, h1, h2, h3⟩ := ih (attempt + 1) v hok
          exact ⟨i, by omega, by omega, h3⟩
    | .connError =>
      by_cases hlast : attempt = 3
      · rw [mrl_conn_last o 3 attempt n ho hlast] at hok
        cases hok
      · rw [mrl_conn_retry o 3 attempt n ho hlast] at hok
        obtain ⟨i, h1, h2, h3⟩ := ih (attempt + 1) v hok
        exact ⟨i, by omega, by omega, h3⟩

/-- Claim C6: `_make_request` looks at the outcomes of at most 4
attempts (3 retries); exhausting the budget on transient outcomes (429,
5xx, connection error) raises a failure; a success reached after only
transient outcomes is returned even through intermediate rate limiting;
and every returned payload stems from a 200 outcome of some attempt, so
a rate-limited response is never surfaced as a normal result. -/
theorem C6_retry_budget :
    (∀ o o2 : Nat → AttemptResult, (∀ i, i ≤ 3 → o i = o2 i) →
      make_request o = make_request o2) ∧
    (∀ o : Nat → AttemptResult, (∀ i, i ≤ 3 → transient (o i) = true) →
      make_request o = .error) ∧
    (∀ (o : Nat → AttemptResult) (i v : Nat), i ≤ 3 →
      (∀ j, j < i → transient (o j) = true) →
      o i = .success v → make_request o = .ok v) ∧
    (∀ (o : Nat → AttemptResult) (v : Nat), make_request o = .ok v →
      ∃ i, i ≤ 3 ∧ o i = .success v) := by
  refine ⟨?_, ?_, ?_, ?_⟩
  · intro o o2 hag
    exact make_request_loop_congr o o2 3 4 0 (fun i hi => hag i (by omega))
  · intro o htr
    exact make_request_loop_all_transient o 4 0 rfl htr
  · intro o i v hi3 htr hsucc
    exact make_request_loop_success o 4 0 i v rfl (Nat.zero_le _) hi3
      (fun j _ hji => htr j hji) hsucc
  · intro o v hok
    obtain ⟨i, _, h2, h3⟩ := make_request_loop_ok_from_success o 4 0 v hok
    exact ⟨i, by omega, h3⟩

/-- Witness for C6: a request rate-limited on the first attempt and
succeeding on the second returns the payload. -/
theorem C6_retry_budget_witness :
    make_request (fun i => if i = 0 then AttemptResult.status 429
      else AttemptResult.success 7) = ReqResult.ok 7 :=
  C6_retry_budget.2.2.1 (fun i => if i = 0 then AttemptResult.status 429
      else AttemptResult.success 7) 1 7 (by omega)
    (fun j hj => by
      have hj0 : j = 0 := by omega
      subst hj0
      decide)
    (by decide)

/-!  Orchestrator lemmas. -/

theorem chunks_flatten {α : Type} (cs : Nat) : ∀ l : List α, (chunks cs l).flatten = l
  | [] => by rw [chunks]; rfl
  | x :: xs => by
    rw [chunks, List.flatten_cons, chunks_flatten cs (List.drop (cs - 1) xs)]
    rw [List.cons_append, List.take_append_drop]
termination_by l => l.length
decreasing_by
  simp only [List.length_cons, List.length_drop]
  omega

theorem process_chunk_foldl {σ β : Type} (f : σ → SymbolOutcome β) (chunk : List σ) :
    ∀ acc : List β,
      chunk.foldl (fun results s =>
        match f s with
        | .ok (some r) => results ++ [r]
        | .ok none => results
        | .error _ => results) acc =
      acc ++ chunk.filterMap (symbol_result f) := by
  induction chunk with
  | nil => intro acc; simp
  | cons s ss ih =>
    intro acc
    rw [List.foldl_cons, List.filterMap_cons]
    match hf : f s with
    | .ok (some r) =>
      simp only [hf, symbol_result]
      rw [ih]
      simp
    | .ok none =>
      simp only [hf, symbol_result]
      rw [ih]
    | .error e =>
      simp only [hf, symbol_result]
      rw [ih]

theorem process_eq_filterMap {σ β : Type} (f : σ → SymbolOutcome β) (cs : Nat)
    (l : List σ) :
    process_symbols_parallel f cs l = l.filterMap (symbol_result f) := by
  rw [process_symbols_parallel]
  have houter : ∀ (chs : List (List σ)) (acc : List β),
      chs.foldl (fun results chunk =>
        chunk.foldl (fun results s =>
          match f s with
          | .ok (some r) => results ++ [r]
          | .ok none => results
          | .error _ => results) results) acc =
      acc ++ (chs.flatten).filterMap (symbol_result f) := by
    intro chs
    induction chs with
    | nil => intro acc; simp
    | cons c cc ih =>
      intro acc
      rw [List.foldl_cons, List.flatten_cons, List.filterMap_append]
      rw [process_chunk_foldl f c acc, ih]
      rw [List.append_assoc]
  rw [houter, chunks_flatten]
  rfl

theorem length_filterMap_countP {σ β : Type} (g : σ → Option β) (l : List σ) :
    (l.filterMap g).length = l.countP (fun s => (g s).isSome) := by
  induction l with
  | nil => rfl
  | cons s ss ih =>
    rw [List.filterMap_cons, List.countP_cons]
    match hg : g s with
    | some r => simp [hg, ih]
    | none => simp [hg, ih]

theorem countP_isSome_isNone {σ β : Type} (g : σ → Option β) (l : List σ) :
    l.countP (fun s => (g s).isSome) + l.countP (fun s => (g s).isNone) =
      l.length := by
  induction l with
  | nil => rfl
  | cons s ss ih =>
    rw [List.countP_cons, List.countP_cons, List.length_cons]
    match hg : g s with
    | some r => simp [hg]; omega
    | none => simp [hg]; omega

/-- Claim C7: for any symbol list and any per-symbol function, the
orchestrator collects exactly the results of the symbols whose call
neither raised nor returned `None` — the result list is the
`filterMap` of the per-symbol outcomes, so its length is `K − N` where
`N` counts the failing symbols, every succeeding symbol's result is
present, every collected result stems from some listed symbol, and no
per-symbol failure aborts the batch. -/
theorem C7_parallel_isolation {σ β : Type} (f : σ → SymbolOutcome β) (cs : Nat)
    (l : List σ) (hcs : 0 < cs) :
    process_symbols_parallel f cs l = l.filterMap (symbol_result f) ∧
    (process_symbols_parallel f cs l).length =
      l.length - l.countP (fun s => (symbol_result f s).isNone) ∧
    (∀ s ∈ l, ∀ r, symbol_result f s = some r →
      r ∈ process_symbols_parallel f cs l) ∧
    (∀ r ∈ process_symbols_parallel f cs l, ∃ s ∈ l, symbol_result f s = some r) := by
  have hmain := process_eq_filterMap f cs l
  refine ⟨hmain, ?_, ?_, ?_⟩
  · rw [hmain, length_filterMap_countP]
    have := countP_isSome_isNone (symbol_result f) l
    omega
  · intro s hs r hr
    rw [hmain]
    exact List.mem_filterMap.2 ⟨s, hs, hr⟩
  · intro r hr
    rw [hmain] at hr
    obtain ⟨s, hs, hsr⟩ := List.mem_filterMap.1 hr
    exact ⟨s, hs, hsr⟩

/-- Witness for C7: four symbols of which one raises and one returns no
result yield exactly the two surviving results. -/
theorem C7_parallel_isolation_witness :
    process_symbols_parallel (fun n : Nat =>
        if n = 0 then (Except.error () : SymbolOutcome Nat)
        else if n = 1 then Except.ok none
        else Except.ok (some (n * 10))) 100 [0, 1, 2, 3] =
      List.filterMap (symbol_result (fun n : Nat =>
        if n = 0 then (Except.error () : SymbolOutcome Nat)
        else if n = 1 then Except.ok none
        else Except.ok (some (n * 10)))) [0, 1, 2, 3] ∧
    (process_symbols_parallel (fun n : Nat =>
        if n = 0 then (Except.error () : SymbolOutcome Nat)
        else if n = 1 then Except.ok none
        else Except.ok (some (n * 10))) 100 [0, 1, 2, 3]).length =
      ([0, 1, 2, 3] : List Nat).length -
        List.countP (fun s => (symbol_result (fun n : Nat =>
          if n = 0 then (Except.error () : SymbolOutcome Nat)
          else if n = 1 then Except.ok none
          else Except.ok (some (n * 10))) s).isNone) [0, 1, 2, 3] ∧
    (∀ s ∈ ([0, 1, 2, 3] : List Nat), ∀ r, symbol_result (fun n : Nat =>
        if n = 0 then (Except.error () : SymbolOutcome Nat)
        else if n = 1 then Except.ok none
        else Except.ok (some (n * 10))) s = some r →
      r ∈ process_symbols_parallel (fun n : Nat =>
        if n = 0 then (Except.error () : SymbolOutcome Nat)
        else if n = 1 then Except.ok none
        else Except.ok (some (n * 10))) 100 [0, 1, 2, 3]) ∧
    (∀ r ∈ process_symbols_parallel (fun n : Nat =>
        if n = 0 then (Except.error () : SymbolOutcome Nat)
        else if n = 1 then Except.ok none
        else Except.ok (some (n * 10))) 100 [0, 1, 2, 3],
      ∃ s ∈ ([0, 1, 2, 3] : List Nat), symbol_result (fun n : Nat =>
        if n = 0 then (Except.error () : SymbolOutcome Nat)
        else if n = 1 then Except.ok none
        else Except.ok (some (n * 10))) s = some r) :=
  C7_parallel_isolation (fun n : Nat =>
      if n = 0 then (Except.error () : SymbolOutcome Nat)
      else if n = 1 then Except.ok none
      else Except.ok (some (n * 10))) 100 [0, 1, 2, 3] (by omega)

/-!  Universe-filter lemmas. -/

theorem latest_10_sessions_length (h : List Bar) (hlen : 10 ≤ h.length) :
    (latest_10_sessions h).length = 10 := by
  rw [latest_10_sessions, List.length_drop]
  omega

theorem calculate_10_sma_of_pos (h : List Bar) (f : Bar → ℚ)
    (hlen : 10 ≤ h.length) (hpos : ∀ b ∈ latest_10_sessions h, 0 < f b) :
    calculate_10_sma h f = listAvg ((latest_10_sessions h).map f) ∧
    0 < calculate_10_sma h f := by
  have hlat := latest_10_sessions_length h hlen
  have hvals : ∀ x ∈ (latest_10_sessions h).map f, 0 < x := by
    intro x hx
    obtain ⟨b, hb, hbe⟩ := List.mem_map.1 hx
    rw [← hbe]
    exact hpos b hb
  have hfilter : ((latest_10_sessions h).map f).filter (fun v => decide (0 < v)) =
      (latest_10_sessions h).map f :=
    List.filter_eq_self.2 (fun a ha => by simpa using hvals a ha)
  have hcalc : calculate_10_sma h f = listAvg ((latest_10_sessions h).map f) := by
    simp only [calculate_10_sma]
    rw [if_neg (by omega)]
    show (if (((latest_10_sessions h).map f).filter (fun v => decide (0 < v))).length < 10
        then (0 : ℚ)
        else (((latest_10_sessions h).map f).filter (fun v => decide (0 < v))).sum /
          ((((latest_10_sessions h).map f).filter (fun v => decide (0 < v))).length : ℚ)) =
      listAvg ((latest_10_sessions h).map f)
    rw [hfilter, if_neg (by rw [List.length_map, hlat]; omega)]
    rfl
  refine ⟨hcalc, ?_⟩
  rw [hcalc, listAvg]
  apply div_pos
  · apply List.sum_pos _ hvals
    intro hnil
    have hcontra := congrArg List.length hnil
    rw [List.length_map, hlat] at hcontra
    simp at hcontra
  · rw [List.length_map, hlat]
    norm_num

theorem calculate_10_sma_ne_zero_pos (h : List Bar) (f : Bar → ℚ)
    (hlen : 10 ≤ h.length) (hne : calculate_10_sma h f ≠ 0) :
    ∀ b ∈ latest_10_sessions h, 0 < f b := by
  by_contra hneg
  push_neg at hneg
  obtain ⟨b, hb, hble⟩ := hneg
  apply hne
  have hlat := latest_10_sessions_length h hlen
  simp only [calculate_10_sma]
  rw [if_neg (by omega)]
  show (if (((latest_10_sessions h).map f).filter (fun v => decide (0 < v))).length < 10
      then (0 : ℚ)
      else (((latest_10_sessions h).map f).filter (fun v => decide (0 < v))).sum /
        ((((latest_10_sessions h).map f).filter (fun v => decide (0 < v))).length : ℚ)) =
    (0 : ℚ)
  rw [if_pos]
  have hflt : (((latest_10_sessions h).map f).filter (fun v => decide (0 < v))).length <
      ((latest_10_sessions h).map f).length := by
    apply List.length_filter_lt_length_iff_exists.2
    exact ⟨f b, List.mem_map_of_mem f hb, by simpa using hble⟩
  rw [List.length_map, hlat] at hflt
  exact hflt

theorem symbol_result_ok {σ β : Type} (g2 : σ → Option β) (s : σ) :
    symbol_result (fun s2 => Except.ok (g2 s2)) s = g2 s := by
  simp only [symbol_result]
  match hg : g2 s with
  | some r => rfl
  | none => rfl

theorem initial_setup_processed_eq (syms : List String) (histOf : String → List Bar) :
    initial_setup_processed syms histOf =
      syms.filter (fun s => (find_highest_volume_for_symbol (histOf s)).isSome) := by
  rw [initial_setup_processed, process_eq_filterMap]
  induction syms with
  | nil => rfl
  | cons s ss ih =>
    rw [List.filterMap_cons, List.filter_cons]
    rw [symbol_result_ok (fun s2 => Option.map (fun hv => (s2, hv))
      (find_highest_volume_for_symbol (histOf s2))) s]
    match hf : find_highest_volume_for_symbol (histOf s) with
    | some hv => simp [ih]
    | none => simp [ih]

theorem passes_filters_iff (h : List Bar) :
    passes_data_universe_filters h = true ↔
      10 ≤ h.length ∧
      (∀ b ∈ latest_10_sessions h, 0 < b.v ∧ 0 < b.c) ∧
      3 ≤ spec_latest_close h ∧
      10000000 < spec_avg_dollar_volume h := by
  constructor
  · intro hp
    simp only [passes_data_universe_filters] at hp
    have h10 : ¬ h.length < 10 := by
      intro h10
      rw [if_pos h10] at hp
      cases hp
    rw [if_neg h10] at hp
    have hlen : 10 ≤ h.length := by omega
    have hcp : ¬ (((h.getLast?).map (fun b => b.c)).getD 0 < 3) := by
      intro hcp
      rw [if_pos hcp] at hp
      cases hp
    rw [if_neg hcp] at hp
    have hclose : 3 ≤ spec_latest_close h := not_lt.1 hcp
    have hzs : calculate_10_sma h (fun b => (b.v : ℚ)) ≠ 0 ∧
        calculate_10_sma h (fun b => b.c) ≠ 0 ∧
        ¬ (calculate_10_sma h (fun b => (b.v : ℚ)) *
          calculate_10_sma h (fun b => b.c) ≤ 10000000) := by
      by_cases hz : calculate_10_sma h (fun b => (b.v : ℚ)) = 0
      · rw [if_pos (by simp [hz])] at hp
        cases hp
      · by_cases hz2 : calculate_10_sma h (fun b => b.c) = 0
        · rw [if_pos (by simp [hz2])] at hp
          cases hp
        · rw [if_neg (by simp [hz, hz2])] at hp
          by_cases hprod : calculate_10_sma h (fun b => (b.v : ℚ)) *
              calculate_10_sma h (fun b => b.c) ≤ 10000000
          · rw [if_pos hprod] at hp
            cases hp
          · exact ⟨hz, hz2, hprod⟩
    obtain ⟨hz1, hz2, hprod⟩ := hzs
    have hposv := calculate_10_sma_ne_zero_pos h (fun b => (b.v : ℚ)) hlen hz1
    have hposc := calculate_10_sma_ne_zero_pos h (fun b => b.c) hlen hz2
    obtain ⟨heqv, _⟩ := calculate_10_sma_of_pos h (fun b => (b.v : ℚ)) hlen hposv
    obtain ⟨heqc, _⟩ := calculate_10_sma_of_pos h (fun b => b.c) hlen hposc
    have hspec : calculate_10_sma h (fun b => (b.v : ℚ)) *
        calculate_10_sma h (fun b => b.c) = spec_avg_dollar_volume h := by
      rw [heqv, heqc, spec_avg_dollar_volume]
    refine ⟨hlen, ?_, hclose, ?_⟩
    · intro b hb
      refine ⟨?_, hposc b hb⟩
      have hq : (0 : ℚ) < (b.v : ℚ) := hposv b hb
      exact_mod_cast hq
    · rw [← hspec]
      exact not_le.1 hprod
  · rintro ⟨hlen, hpos, hclose, hdollar⟩
    simp only [passes_data_universe_filters]
    rw [if_neg (by omega)]
    have hcp : ¬ (((h.getLast?).map (fun b => b.c)).getD 0 < 3) := not_lt.2 hclose
    rw [if_neg hcp]
    have hposv : ∀ b ∈ latest_10_sessions h, 0 < (b.v : ℚ) := by
      intro b hb
      exact_mod_cast (hpos b hb).1
    have hposc : ∀ b ∈ latest_10_sessions h, 0 < b.c := fun b hb => (hpos b hb).2
    obtain ⟨heqv, hgtv⟩ := calculate_10_sma_of_pos h (fun b => (b.v : ℚ)) hlen hposv
    obtain ⟨heqc, hgtc⟩ := calculate_10_sma_of_pos h (fun b => b.c) hlen hposc
    rw [if_neg (by simp [ne_of_gt hgtv, ne_of_gt hgtc])]
    rw [if_neg (by
      rw [heqv, heqc]
      have hdollar2 : 10000000 <
          listAvg ((latest_10_sessions h).map (fun b => (b.v : ℚ))) *
            listAvg ((latest_10_sessions h).map (fun b => b.c)) := hdollar
      exact not_le.2 hdollar2)]

/-- Claim C9 (amended): the bootstrap pass does not consult the
universe filter at all — it processes every active symbol whose fetched
history contains a positive-volume bar; and the universe-filter
predicate itself includes a symbol exactly when its history has at
least 10 sessions, each of the latest 10 sessions has positive volume
and close, the latest close is at least $3.00, and the 10-session
average dollar volume (average volume × average close) strictly
exceeds $10,000,000. -/
theorem C9_bootstrap_universe_filter :
    (∀ (syms : List String) (histOf : String → List Bar),
      initial_setup_processed syms histOf =
        syms.filter (fun s => (find_highest_volume_for_symbol (histOf s)).isSome)) ∧
    (∀ h : List Bar, passes_data_universe_filters h = true ↔
      10 ≤ h.length ∧
      (∀ b ∈ latest_10_sessions h, 0 < b.v ∧ 0 < b.c) ∧
      3 ≤ spec_latest_close h ∧
      10000000 < spec_avg_dollar_volume h) :=
  ⟨initial_setup_processed_eq, passes_filters_iff⟩

/-- Witness for C9 (amended): ten sessions of volume 2,000,000 at close
$10 pass the filter via the characterisation. -/
theorem C9_bootstrap_universe_filter_witness :
    passes_data_universe_filters
      [⟨0, 2000000, 10⟩, ⟨1, 2000000, 10⟩, ⟨2, 2000000, 10⟩, ⟨3, 2000000, 10⟩,
       ⟨4, 2000000, 10⟩, ⟨5, 2000000, 10⟩, ⟨6, 2000000, 10⟩, ⟨7, 2000000, 10⟩,
       ⟨8, 2000000, 10⟩, ⟨9, 2000000, 10⟩] = true :=
  (C9_bootstrap_universe_filter.2
    [⟨0, 2000000, 10⟩, ⟨1, 2000000, 10⟩, ⟨2, 2000000, 10⟩, ⟨3, 2000000, 10⟩,
     ⟨4, 2000000, 10⟩, ⟨5, 2000000, 10⟩, ⟨6, 2000000, 10⟩, ⟨7, 2000000, 10⟩,
     ⟨8, 2000000, 10⟩, ⟨9, 2000000, 10⟩]).2
    (by
      refine ⟨by simp, ?_, ?_, ?_⟩
      · intro b hb
        fin_cases hb <;> exact ⟨by norm_num, by norm_num⟩
      · have h3 : spec_latest_close
            [⟨0, 2000000, 10⟩, ⟨1, 2000000, 10⟩, ⟨2, 2000000, 10⟩, ⟨3, 2000000, 10⟩,
             ⟨4, 2000000, 10⟩, ⟨5, 2000000, 10⟩, ⟨6, 2000000, 10⟩, ⟨7, 2000000, 10⟩,
             ⟨8, 2000000, 10⟩, ⟨9, 2000000, 10⟩] = 10 := rfl
        rw [h3]
        norm_num
      · norm_num [spec_avg_dollar_volume, listAvg, latest_10_sessions])

/-- Counterexample to C9 as stated: a symbol whose history is one bar
of volume 5 at close $1 fails the universe filter, yet the bootstrap
pass processes it — `_initial_setup` draws its symbols from
`get_all_active_symbols()` and never applies the filter. -/
theorem C9_bootstrap_counterexample :
    passes_data_universe_filters [⟨0, 5, 1⟩] = false ∧
    initial_setup_processed ["A"] (fun _ => [⟨0, 5, 1⟩]) = ["A"] := by
  refine ⟨rfl, ?_⟩
  rw [initial_setup_processed_eq]
  decide
